import Mathlib

/-!
Verification of the MetroCity equation engine (tokenizer, algebraic parser,
evaluator, step generator, solver, input validator) against a shallow Lean
embedding of the TypeScript source.

Conventions of the embedding:
- JavaScript numbers are modelled as exact rationals (`Rat`).  All numeric
  values handled by the engine (integer and decimal literals, sums, products
  and quotients of coefficients, the 1e-10 and 0.001 tolerances) are exactly
  representable, so the embedding tracks the source arithmetic faithfully
  except for float rounding noise, which every tolerance in the source is
  designed to absorb.
- Strings are modelled as `List Char`; a thrown JS exception is an
  `Except.error`; `undefined` is `Option.none`.
- Side-effect error/warning accumulation on the parser object is modelled by
  returning the accumulated lists alongside each result, in push order.
- Non-deterministic metadata (`Date.now()`, random ids, `performance.now()`)
  is replaced by fixed placeholders; no claim mentions those fields.
- The source field name `variable` is a Lean keyword and is rendered as
  `varName`; the span field `end` is rendered as `stop`.
-/

namespace MetroCity

/-- Character span of a token or term (source: `{ start, end }`). -/
structure Span where
  start : Nat
  stop : Nat
deriving DecidableEq, Repr

/-- Token kinds of the tokenizer (source: `TokenType`). -/
inductive TokenType where
  | NUMBER | VARIABLE | OPERATOR | EQUALS | LPAREN | RPAREN
deriving DecidableEq, Repr

/-- A lexical token (source: `Token`). -/
structure Token where
  type : TokenType
  value : List Char
  position : Span
deriving DecidableEq, Repr

/-- A single coefficient/variable term (source: `Term`).
`varName` renders the source field `variable`; `none` is JS `undefined`. -/
structure Term where
  coefficient : Rat
  varName : Option (List Char) := none
  exponent : Option Int := none
  isConstant : Bool
  position : Span
deriving DecidableEq, Repr

/-- One side of an equation (source: `Expression`).  The constant source
field `type: 'binary_operation'` carries no information and is omitted. -/
structure Expression where
  terms : List Term
  simplified : Bool
deriving DecidableEq, Repr

/-- Heuristic equation categories (source: `EquationType`). -/
inductive EquationType where
  | basic | standard | distributive | complex | fractional | multi_step
deriving DecidableEq, Repr

/-- Operation kinds used in metadata (source: `OperationType`). -/
inductive OperationType where
  | transposition | combination | distribution | isolation
  | multiplication | division | addition | subtraction
deriving DecidableEq, Repr

/-- Structured parse-error kinds (source error `type` strings; renamed to
short Lean identifiers: `synError` is the source `syntax_error`,
`invalidChar` is `invalid_character`, `missingOp` is `missing_operator`,
`mismatchedParens` is `mismatched_parentheses`, `divByZero` is
`division_by_zero`, `invalidVar` is `invalid_variable`, `emptyExpr` is
`empty_expression`). -/
inductive ErrorType where
  | synError | invalidChar | missingOp | mismatchedParens
  | divByZero | invalidVar | emptyExpr
deriving DecidableEq, Repr

/-- Error severities (source: `'low' | 'medium' | 'high' | 'critical'`). -/
inductive Severity where
  | low | medium | high | critical
deriving DecidableEq, Repr

/-- A structured parse error (source: `EquationError`). -/
structure EquationError where
  type : ErrorType
  message : String
  severity : Severity
  position : Option Span := none
deriving DecidableEq, Repr

/-- Warning kinds (source warning `type` strings). -/
inductive WarningType where
  | unnecessaryParens | canBeSimplified | unusualFormat | highComplexity
deriving DecidableEq, Repr

/-- A structured warning (source: `EquationWarning`). -/
structure EquationWarning where
  type : WarningType
  message : String
  suggestion : String
deriving DecidableEq, Repr

/-- Equation metadata (source: `EquationMetadata`); id and timestamp are
fixed placeholders for the source's `Date.now()`-based generation. -/
structure EquationMetadata where
  id : String
  originalInput : List Char
  timestamp : Nat
  difficultyLevel : String
  estimatedSteps : Nat
  requiredOperations : List OperationType
deriving DecidableEq, Repr

/-- The equation AST (source: `EquationAST`); the constant `type:
'equation'` field is omitted.  The source field `variables` collides with a
Lean keyword and is rendered `vars`. -/
structure EquationAST where
  left : Expression
  right : Expression
  metadata : EquationMetadata
  equationType : EquationType
  vars : List (List Char)
  complexity : Nat
deriving DecidableEq, Repr

/-- Result of a parse call (source: `ParseResult`).  `parseTime` is a
placeholder for `performance.now()` deltas. -/
structure ParseResult where
  ast : Option EquationAST
  tokens : List Token
  errors : List EquationError
  warnings : List EquationWarning
  parseTime : Rat
deriving DecidableEq, Repr

/-- Engine configuration (source: `EngineConfig`). -/
structure EngineConfig where
  supportedTypes : List EquationType
  maxComplexity : Nat
  allowFractions : Bool
  allowDecimals : Bool
  maxSteps : Nat
  timeoutMs : Nat
  generateAlternatives : Bool
deriving DecidableEq, Repr

/-- Source: `DEFAULT_ENGINE_CONFIG`. -/
def DEFAULT_ENGINE_CONFIG : EngineConfig where
  supportedTypes := [.basic, .standard, .distributive]
  maxComplexity := 10
  allowFractions := true
  allowDecimals := true
  maxSteps := 20
  timeoutMs := 5000
  generateAlternatives := true

/-- Source: `SUPPORTED_VARIABLES = ['x','y','z','a','b','c','n','t']`. -/
def SUPPORTED_VARIABLES : List (List Char) :=
  [['x'], ['y'], ['z'], ['a'], ['b'], ['c'], ['n'], ['t']]

/-- Pedagogical step kinds (source: `Step.type`). -/
inductive StepType where
  | transposition | combination | distribution | isolation
  | multiplication | division | addition | subtraction
deriving DecidableEq, Repr

/-- A pedagogical solution step (source: `Step`). -/
structure Step where
  id : String
  type : StepType
  description : String
  fromExpression : Expression
  toExpression : Expression
  justification : String
  difficulty : Nat
  hints : List String
deriving DecidableEq, Repr

/-- A generated step sequence (source: `StepSequence`). -/
structure StepSequence where
  steps : List Step
  isOptimal : Bool
  estimatedTime : Rat
  alternativeExists : Bool
deriving DecidableEq, Repr

/-- Solution methods (source: `SolutionMethod`). -/
inductive SolutionMethod where
  | direct_isolation | distribution_first | combination_first
  | cross_multiplication | elimination
deriving DecidableEq, Repr

/-- One verification record (source: `VerificationStep`).  The cosmetic
`substitution` display string elides the numeric rendering of the value. -/
structure VerificationStep where
  substitution : List Char
  leftSideResult : Rat
  rightSideResult : Rat
  isValid : Bool
deriving DecidableEq, Repr

/-- A computed solution (source: `Solution`; the misspelled source field
`verificationsSteps` is kept as-is; `varName` renders `variable`). -/
structure Solution where
  varName : List Char
  value : Rat
  steps : List Step
  verificationsSteps : List VerificationStep
  solutionMethod : SolutionMethod
  confidence : Rat
deriving DecidableEq, Repr

/-- Validation outcome (source: `ValidationResult`). -/
structure ValidationResult where
  isValid : Bool
  errors : List EquationError
  warnings : List EquationWarning
  suggestions : List String
deriving DecidableEq, Repr

/-- The 1e-10 tolerance used throughout the engine. -/
def epsTol : Rat := 1 / 10 ^ 10

-- ============================================================================
-- Tokenizer (source: AlgebraicParser.tokenize / parseNumber / parseVariable /
-- parseSymbol)
-- ============================================================================

namespace AlgebraicParser

/-- Digit/dot scanner of `parseNumber`: consumes the maximal run of digits
with at most one decimal point (when `allowDecimals`), returning the consumed
characters and the remainder. -/
def numberSpan (allowDecimals : Bool) (hasDecimal : Bool) : List Char → List Char × List Char
  | [] => ([], [])
  | c :: rest =>
    if c.isDigit then
      let r := numberSpan allowDecimals hasDecimal rest
      (c :: r.1, r.2)
    else if c = '.' && !hasDecimal && allowDecimals then
      let r := numberSpan allowDecimals true rest
      (c :: r.1, r.2)
    else ([], c :: rest)

theorem numberSpan_snd_length (allowDecimals hasDecimal : Bool) (l : List Char) :
    (numberSpan allowDecimals hasDecimal l).2.length ≤ l.length := by
  induction l generalizing hasDecimal with
  | nil => simp [numberSpan]
  | cons c rest ih =>
    simp only [numberSpan]
    split
    · simpa using Nat.le_succ_of_le (ih hasDecimal)
    · split
      · simpa using Nat.le_succ_of_le (ih true)
      · simp

theorem length_dropWhile_le (p : Char → Bool) (l : List Char) :
    (l.dropWhile p).length ≤ l.length := by
  induction l with
  | nil => simp [List.dropWhile]
  | cons c rest ih =>
    simp only [List.dropWhile]
    split
    · exact Nat.le_succ_of_le ih
    · simp

/-- Source `parseSymbol`: maps one-character operators and delimiters to a
token type. -/
def parseSymbol (c : Char) : Option TokenType :=
  if c = '+' then some .OPERATOR
  else if c = '-' then some .OPERATOR
  else if c = '*' then some .OPERATOR
  else if c = '/' then some .OPERATOR
  else if c = '=' then some .EQUALS
  else if c = '(' then some .LPAREN
  else if c = ')' then some .RPAREN
  else none

/-- Accumulated tokenizer output: tokens plus the side-channel errors and
warnings pushed onto the parser state, in push order. -/
structure TokenizeResult where
  tokens : List Token
  errors : List EquationError
  warnings : List EquationWarning
deriving DecidableEq, Repr

/-- The single left-to-right scan of `tokenize`, carrying the current
character position.  Whitespace is skipped; digits start a maximal number
token; letters start a maximal letter-run VARIABLE token (the source scans
`while /[a-zA-Z]/`, so a run of letters becomes ONE token despite the inline
comment saying only one letter is taken); unmapped characters push an
`invalid_character` error and scanning continues. -/
def tokenizeGo (allowDecimals : Bool) : List Char → Nat → TokenizeResult
  | [], _ => ⟨[], [], []⟩
  | c :: rest, position =>
    if c.isWhitespace then tokenizeGo allowDecimals rest (position + 1)
    else if c.isDigit then
      let scanned := numberSpan allowDecimals false rest
      let value := c :: scanned.1
      let newPosition := position + value.length
      let r := tokenizeGo allowDecimals scanned.2 newPosition
      ⟨⟨.NUMBER, value, ⟨position, newPosition⟩⟩ :: r.tokens, r.errors, r.warnings⟩
    else if c.isAlpha then
      let value := c :: rest.takeWhile Char.isAlpha
      let newPosition := position + value.length
      let r := tokenizeGo allowDecimals (rest.dropWhile Char.isAlpha) newPosition
      let warn :=
        if SUPPORTED_VARIABLES.contains value then []
        else [⟨.unusualFormat, "Variable no estándar", "Considera usar variables soportadas"⟩]
      ⟨⟨.VARIABLE, value, ⟨position, newPosition⟩⟩ :: r.tokens, r.errors, warn ++ r.warnings⟩
    else
      match parseSymbol c with
      | some tokenType =>
        let r := tokenizeGo allowDecimals rest (position + 1)
        ⟨⟨tokenType, [c], ⟨position, position + 1⟩⟩ :: r.tokens, r.errors, r.warnings⟩
      | none =>
        let r := tokenizeGo allowDecimals rest (position + 1)
        ⟨r.tokens, ⟨.invalidChar, "Caracter no válido", .medium, some ⟨position, position + 1⟩⟩ :: r.errors, r.warnings⟩
termination_by l _ => l.length
decreasing_by
  all_goals simp only [List.length_cons]
  all_goals first
    | omega
    | exact Nat.lt_succ_of_le (numberSpan_snd_length allowDecimals false rest)
    | exact Nat.lt_succ_of_le (length_dropWhile_le Char.isAlpha rest)

/-- Source `tokenize(input)`. -/
def tokenize (cfg : EngineConfig) (input : List Char) : TokenizeResult :=
  tokenizeGo cfg.allowDecimals input 0

end AlgebraicParser

-- ============================================================================
-- Numeric value of a NUMBER token (JS parseFloat on the scanned text)
-- ============================================================================

/-- Value of a digit run as a natural number. -/
def natValue (l : List Char) : Nat :=
  l.foldl (fun acc c => 10 * acc + (c.toNat - 48)) 0

/-- JS `parseFloat` restricted to the strings the tokenizer produces for
NUMBER tokens: a digit run optionally followed by `.` and more digits. -/
def parseFloat (s : List Char) : Rat :=
  let intPart := s.takeWhile Char.isDigit
  match s.dropWhile Char.isDigit with
  | '.' :: fracPart => (natValue intPart : Rat) + (natValue fracPart : Rat) / 10 ^ fracPart.length
  | _ => (natValue intPart : Rat)

-- ============================================================================
-- Shared term-grouping helpers (identical code appears in
-- AlgebraicParser.combineAndSimplifyTerms and in
-- ExpressionEvaluator.simplifyExpression)
-- ============================================================================

/-- Grouping key of `combineAndSimplifyTerms` and `simplifyExpression`: the
source computes `term.variable || 'constant'`, so constants share the
literal string key `constant` (which a variable actually named `constant`
would collide with). -/
def termKey (t : Term) : List Char :=
  t.varName.getD ("constant".toList)

/-- Insertion into the string-keyed grouping object: JS object string keys
preserve insertion order; a repeated key adds the coefficient onto the
stored copy of the FIRST term seen for that key. -/
def insertTerm (groups : List Term) (t : Term) : List Term :=
  match groups with
  | [] => [t]
  | g :: gs =>
    if termKey g = termKey t then { g with coefficient := g.coefficient + t.coefficient } :: gs
    else g :: insertTerm gs t

-- ============================================================================
-- Parser (source: AlgebraicParser.parseEquation / parseExpression /
-- parseTerms / parseSingleTerm / combineAndSimplifyTerms / findEqualsSign /
-- createEquationAST / detectEquationType)
-- ============================================================================

namespace AlgebraicParser

/-- Result of `parseSingleTerm`: the optional term, the index of the next
unconsumed token, and any error pushed. -/
structure SingleTermResult where
  term : Option Term
  nextIndex : Nat
  errors : List EquationError
deriving DecidableEq, Repr

/-- Sign handling of `parseSingleTerm`: any OPERATOR token is consumed;
only a `-` value flips the sign (a `+`, `*` or `/` leaves it at 1).
Returns whether the sign is negative and the index after the step. -/
def signStep (tokens : List Token) (startIndex : Nat) : Bool × Nat :=
  match tokens.get? startIndex with
  | some tok =>
    if tok.type = .OPERATOR then
      (tok.value = ['-'], startIndex + 1)
    else (false, startIndex)
  | none => (false, startIndex)

/-- Coefficient handling of `parseSingleTerm`: an optional NUMBER token.
Returns `(coefficient, hasCoefficient, next index)`. -/
def coeffStep (tokens : List Token) (i1 : Nat) : Rat × Bool × Nat :=
  match tokens.get? i1 with
  | some tok =>
    if tok.type = .NUMBER then (parseFloat tok.value, true, i1 + 1) else (0, false, i1)
  | none => (0, false, i1)

/-- Variable handling of `parseSingleTerm`: an optional VARIABLE token. -/
def varStep (tokens : List Token) (i2 : Nat) : Option (List Char) × Nat :=
  match tokens.get? i2 with
  | some tok => if tok.type = .VARIABLE then (some tok.value, i2 + 1) else (none, i2)
  | none => (none, i2)

/-- Source `parseSingleTerm(tokens, startIndex)`: optional sign, optional
NUMBER coefficient (default 1 when a VARIABLE follows), optional VARIABLE.
A lone `-` is a syntax error; a completely unconsumable token yields no
term and skips one token. -/
def parseSingleTerm (tokens : List Token) (startIndex : Nat) : SingleTermResult :=
  let s := signStep tokens startIndex
  let sign : Rat := if s.1 then -1 else 1
  let c := coeffStep tokens s.2
  let hasCoefficient := c.2.1
  let i2 := c.2.2
  let v := varStep tokens i2
  match v.1 with
  | some name =>
    let coefficient := if hasCoefficient then c.1 else 1
    { term := some
        { coefficient := sign * coefficient
          varName := some name
          exponent := some 1
          isConstant := false
          position := ⟨((tokens.get? startIndex).map (·.position.start)).getD 0,
                       ((tokens.get? (v.2 - 1)).map (·.position.stop)).getD 0⟩ }
      nextIndex := v.2
      errors := [] }
  | none =>
    if hasCoefficient then
      { term := some
          { coefficient := sign * c.1
            varName := none
            exponent := none
            isConstant := true
            position := ⟨((tokens.get? startIndex).map (·.position.start)).getD 0,
                         ((tokens.get? (i2 - 1)).map (·.position.stop)).getD 0⟩ }
        nextIndex := i2
        errors := [] }
    else if s.1 then
      { term := none, nextIndex := i2,
        errors := [⟨.synError, "Signo negativo sin término", .medium, none⟩] }
    else
      { term := none, nextIndex := i2 + 1, errors := [] }

theorem signStep_le (tokens : List Token) (i : Nat) :
    i ≤ (signStep tokens i).2 := by
  unfold signStep
  rcases tokens.get? i with _ | tok <;> simp
  split <;> simp

theorem signStep_neg (tokens : List Token) (i : Nat) :
    (signStep tokens i).1 = true → (signStep tokens i).2 = i + 1 := by
  unfold signStep
  rcases tokens.get? i with _ | tok <;> simp
  split <;> simp_all

theorem coeffStep_le (tokens : List Token) (i : Nat) :
    i ≤ (coeffStep tokens i).2.2 := by
  unfold coeffStep
  rcases tokens.get? i with _ | tok <;> simp
  split <;> simp

theorem coeffStep_has (tokens : List Token) (i : Nat) :
    (coeffStep tokens i).2.1 = true → (coeffStep tokens i).2.2 = i + 1 := by
  unfold coeffStep
  rcases tokens.get? i with _ | tok <;> simp
  split <;> simp_all

theorem varStep_le (tokens : List Token) (i : Nat) :
    i ≤ (varStep tokens i).2 := by
  unfold varStep
  rcases tokens.get? i with _ | tok <;> simp
  split <;> simp

theorem varStep_some (tokens : List Token) (i : Nat) (v : List Char) :
    (varStep tokens i).1 = some v → (varStep tokens i).2 = i + 1 := by
  unfold varStep
  rcases tokens.get? i with _ | tok <;> simp
  split <;> simp_all

theorem parseSingleTerm_nextIndex_gt (tokens : List Token) (startIndex : Nat) :
    startIndex < (parseSingleTerm tokens startIndex).nextIndex := by
  unfold parseSingleTerm
  have hs := signStep_le tokens startIndex
  have hc := coeffStep_le tokens (signStep tokens startIndex).2
  have hv := varStep_le tokens (coeffStep tokens (signStep tokens startIndex).2).2.2
  rcases hvs : (varStep tokens (coeffStep tokens (signStep tokens startIndex).2).2.2).1 with
    _ | name
  · simp only [hvs]
    split
    · rename_i hhas
      have h2 := coeffStep_has tokens (signStep tokens startIndex).2 hhas
      refine Nat.lt_of_le_of_lt hs ?_
      show (signStep tokens startIndex).2 < (coeffStep tokens (signStep tokens startIndex).2).2.2
      omega
    · split
      · rename_i _ hneg
        have h1 := signStep_neg tokens startIndex hneg
        exact Nat.lt_of_lt_of_le (by omega) hc
      · exact Nat.lt_succ_of_le (Nat.le_trans hs hc)
  · simp only [hvs]
    have h3 := varStep_some tokens (coeffStep tokens (signStep tokens startIndex).2).2.2 name hvs
    refine Nat.lt_of_le_of_lt (Nat.le_trans hs hc) ?_
    show (coeffStep tokens (signStep tokens startIndex).2).2.2 <
      (varStep tokens (coeffStep tokens (signStep tokens startIndex).2).2.2).2
    omega

/-- The `while` loop of `parseTerms`. -/
def parseTermsGo (tokens : List Token) (i : Nat) : List Term × List EquationError :=
  if _h : i < tokens.length then
    let r := parseSingleTerm tokens i
    let rest := parseTermsGo tokens r.nextIndex
    ((match r.term with | some t => t :: rest.1 | none => rest.1), r.errors ++ rest.2)
  else ([], [])
termination_by tokens.length - i
decreasing_by
  have := parseSingleTerm_nextIndex_gt tokens i
  omega

/-- Source `combineAndSimplifyTerms`: group by variable key, sum
coefficients, then drop terms with `|coefficient| <= 1e-10`. -/
def combineAndSimplifyTerms (terms : List Term) : List Term :=
  (terms.foldl insertTerm []).filter (fun t => |t.coefficient| > epsTol)

/-- Source `parseTerms`. -/
def parseTerms (tokens : List Token) : List Term × List EquationError :=
  let r := parseTermsGo tokens 0
  (combineAndSimplifyTerms r.1, r.2)

/-- Source `createEmptyExpression`. -/
def createEmptyExpression : Expression :=
  { terms := [], simplified := true }

/-- Source `parseExpression`: an empty token sublist pushes an
`empty_expression` error and yields the empty expression; otherwise the
parsed term list (never a null/absent expression). -/
def parseExpression (tokens : List Token) : Expression × List EquationError :=
  if tokens.isEmpty then
    (createEmptyExpression, [⟨.emptyExpr, "Expresión vacía detectada", .high, none⟩])
  else
    let r := parseTerms tokens
    ({ terms := r.1, simplified := false }, r.2)

/-- Source `findEqualsSign`: index of the first EQUALS token, if any. -/
def findEqualsSign (tokens : List Token) : Option Nat :=
  tokens.findIdx? (fun t => t.type = .EQUALS)

/-- Source `extractVariablesFromExpressions`: first-seen-order set of the
variable names of both sides. -/
def extractVariablesFromExpressions (expressions : List Expression) : List (List Char) :=
  expressions.foldl
    (fun acc expr =>
      expr.terms.foldl
        (fun acc t =>
          match t.varName with
          | some v => if acc.contains v then acc else acc ++ [v]
          | none => acc)
        acc)
    []

/-- Source `createEquationAST`: id/timestamp are placeholders; equationType,
complexity, difficulty and step estimates are parser defaults, refined later
by `EquationEngine.enhanceAST`. -/
def createEquationAST (left right : Expression) (originalInput : List Char) : EquationAST :=
  { left := left
    right := right
    metadata :=
      { id := "eq", originalInput := originalInput, timestamp := 0,
        difficultyLevel := "beginner", estimatedSteps := 0, requiredOperations := [] }
    equationType := .basic
    vars := extractVariablesFromExpressions [left, right]
    complexity := 0 }

/-- Source `parseEquation(input)`: tokenize, reject an empty token list,
locate the first `=`, parse both sides, assemble the AST.  The source
`try/catch` wrapper is dead in the embedding because no reachable code
throws.  Errors accumulate in push order. -/
def parseEquation (cfg : EngineConfig) (input : List Char) : ParseResult :=
  let tk := tokenize cfg input
  if tk.tokens.isEmpty then
    { ast := none, tokens := tk.tokens,
      errors := tk.errors ++ [⟨.emptyExpr, "La ecuación está vacía", .high, none⟩],
      warnings := tk.warnings, parseTime := 0 }
  else
    match findEqualsSign tk.tokens with
    | none =>
      { ast := none, tokens := tk.tokens,
        errors := tk.errors ++ [⟨.synError, "Falta el signo de igualdad", .high, none⟩],
        warnings := tk.warnings, parseTime := 0 }
    | some equalsIndex =>
      let leftTokens := tk.tokens.take equalsIndex
      let rightTokens := tk.tokens.drop (equalsIndex + 1)
      let leftR := parseExpression leftTokens
      let rightR := parseExpression rightTokens
      { ast := some (createEquationAST leftR.1 rightR.1 input)
        tokens := tk.tokens
        errors := tk.errors ++ leftR.2 ++ rightR.2
        warnings := tk.warnings
        parseTime := 0 }

/-- Source `hasDistributivePattern`: at least 3 terms overall and some
non-constant term with `|coefficient| > 1`. -/
def hasDistributivePattern (ast : EquationAST) : Bool :=
  let allTerms := ast.left.terms ++ ast.right.terms
  decide (3 ≤ allTerms.length) &&
    allTerms.any (fun t => decide (|t.coefficient| > 1) && !t.isConstant)

/-- Source `detectEquationType`: the first-match-wins cascade, returning the
detected type together with the warning pushed in the no-variables case. -/
def detectEquationType (ast : EquationAST) : EquationType × List EquationWarning :=
  let allTerms := ast.left.terms ++ ast.right.terms
  let variableTerms := allTerms.filter (fun t => !t.isConstant)
  let hasMultipleTerms := decide (1 < variableTerms.length)
  if variableTerms.length = 0 then
    (.basic, [⟨.unusualFormat, "Ecuación sin variables", "Verifica que sea una ecuación válida"⟩])
  else if variableTerms.length = 1 ∧ allTerms.length ≤ 2 then (.basic, [])
  else if hasMultipleTerms ∧ allTerms.length ≤ 4 then (.standard, [])
  else if hasDistributivePattern ast then (.distributive, [])
  else if 4 < allTerms.length then (.complex, [])
  else (.standard, [])

end AlgebraicParser

-- ============================================================================
-- Evaluator (source: ExpressionEvaluator)
-- ============================================================================

namespace ExpressionEvaluator

/-- The JS idiom `term.exponent || 1`: an absent exponent AND an exponent of
0 (falsy) both evaluate as 1. -/
def expOrOne (e : Option Int) : Int :=
  match e with
  | none => 1
  | some n => if n = 0 then 1 else n

/-- Source `evaluateTerm(term, variable, value)`: constants evaluate to the
coefficient; a matching variable gives `coefficient * value ^ exponent`; a
term with any other variable throws. -/
def evaluateTerm (term : Term) (v : List Char) (value : Rat) : Except String Rat :=
  if term.isConstant then .ok term.coefficient
  else if term.varName = some v then
    .ok (term.coefficient * value ^ expOrOne term.exponent)
  else .error "No se puede evaluar el término - valor no proporcionado"

/-- Source `evaluateWithSubstitution(expression, variable, value)`: sums the
term values left to right; the first throwing term aborts. -/
def evaluateWithSubstitution (expression : Expression) (v : List Char) (value : Rat) :
    Except String Rat :=
  expression.terms.foldlM (fun acc term => do
    let termValue ← evaluateTerm term v value
    pure (acc + termValue)) 0

/-- Source `getVariableCoefficient(expression, variable)`: sums the
coefficients of terms whose variable field strictly equals the argument.
The argument is an `Option` because the StepGenerator passes
`equation.variables[0]`, which is `undefined` for a variable-free equation,
and JS `undefined === undefined` then matches the constant terms. -/
def getVariableCoefficient (expression : Expression) (v : Option (List Char)) : Rat :=
  expression.terms.foldl
    (fun acc term => if term.varName = v then acc + term.coefficient else acc) 0

/-- Source `getConstantTerm(expression)`. -/
def getConstantTerm (expression : Expression) : Rat :=
  expression.terms.foldl
    (fun acc term => if term.isConstant then acc + term.coefficient else acc) 0

/-- Source `simplifyExpression(expression)`: group the terms by variable
key (insertion order preserved), sum coefficients per key, drop results
with `|coefficient| <= 1e-10`, and mark the expression simplified.  An
expression with no terms is returned unchanged. -/
def simplifyExpression (expression : Expression) : Expression :=
  if expression.terms.isEmpty then expression
  else
    { expression with
      terms := (expression.terms.foldl insertTerm []).filter (fun t => |t.coefficient| > epsTol)
      simplified := true }

/-- Source `multiplyByScalar(expression, scalar)`. -/
def multiplyByScalar (expression : Expression) (scalar : Rat) : Expression :=
  { expression with
    terms := expression.terms.map (fun t => { t with coefficient := t.coefficient * scalar })
    simplified := false }

end ExpressionEvaluator

-- ============================================================================
-- Step generator (source: StepGenerator)
-- ============================================================================

namespace StepGenerator

open ExpressionEvaluator

/-- Placeholder for the source's `Date.now()`/random step id. -/
def generateStepId : String := "step"

/-- Source `generateTranspositionDescription` (numeric rendering elided). -/
def generateTranspositionDescription (leftConstant : Rat) : String :=
  if |leftConstant| > epsTol then "Transponer el término constante al lado derecho"
  else "Reorganizar términos"

/-- Source `createTransposedExpression`. -/
def createTransposedExpression (equation : EquationAST) : Expression :=
  simplifyExpression equation.left

/-- Source `createIsolatedExpression`: a single coefficient-1 term for the
first variable (JS `variables[0]`, which can be `undefined`). -/
def createIsolatedExpression (equation : EquationAST) : Expression :=
  { terms := [{ coefficient := 1, varName := equation.vars.head?, exponent := some 1,
                isConstant := false, position := ⟨0, 1⟩ }]
    simplified := true }

/-- Source `createDistributedExpression`. -/
def createDistributedExpression (expression : Expression) : Expression :=
  simplifyExpression expression

/-- Source `createClearedFractionsExpression` (multiplies by 2, a stated
simplification in the source). -/
def createClearedFractionsExpression (expression : Expression) : Expression :=
  multiplyByScalar expression 2

/-- Source `createVariableTransposedExpression`. -/
def createVariableTransposedExpression (equation : EquationAST) : Expression :=
  simplifyExpression equation.left

/-- Source `createConstantTransposedExpression`. -/
def createConstantTransposedExpression (equation : EquationAST) : Expression :=
  simplifyExpression equation.left

/-- Source `createTranspositionStep`. -/
def createTranspositionStep (equation : EquationAST) : Step :=
  { id := generateStepId
    type := .transposition
    description := generateTranspositionDescription (getConstantTerm equation.left)
    fromExpression := equation.left
    toExpression := createTransposedExpression equation
    justification := "Se transponen los términos aplicando la propiedad de igualdad"
    difficulty := 2
    hints := ["Para mantener la igualdad, lo que se hace a un lado debe hacerse al otro",
              "Si un término está sumando, pasa al otro lado restando"] }

/-- Source `createIsolationStep` (numeric/variable rendering in the
description elided). -/
def createIsolationStep (equation : EquationAST) : Step :=
  { id := generateStepId
    type := .isolation
    description := "Dividir ambos lados entre el coeficiente para aislar la variable"
    fromExpression := equation.left
    toExpression := createIsolatedExpression equation
    justification := "Aplicamos la propiedad de división para aislar la variable"
    difficulty := 2
    hints := ["Para aislar la variable, dividimos ambos lados entre su coeficiente",
              "La división es la operación inversa de la multiplicación"] }

/-- Source `createCombinationStep`. -/
def createCombinationStep (equation : EquationAST) : Step :=
  { id := generateStepId
    type := .combination
    description := "Combinar términos semejantes"
    fromExpression := equation.left
    toExpression := simplifyExpression equation.left
    justification := "Los términos con la misma variable se pueden combinar sumando sus coeficientes"
    difficulty := 1
    hints := ["Los términos semejantes tienen la misma variable",
              "Suma o resta solo los coeficientes, la variable permanece igual"] }

/-- Source `createDistributiveStep`. -/
def createDistributiveStep (equation : EquationAST) : Step :=
  { id := generateStepId
    type := .distribution
    description := "Aplicar propiedad distributiva"
    fromExpression := equation.left
    toExpression := createDistributedExpression equation.left
    justification := "Se aplica la propiedad distributiva"
    difficulty := 3
    hints := ["Multiplica el término exterior por cada término dentro del paréntesis",
              "No olvides mantener los signos correctos"] }

/-- Source `createClearFractionsStep`. -/
def createClearFractionsStep (equation : EquationAST) : Step :=
  { id := generateStepId
    type := .multiplication
    description := "Multiplicar ambos lados para eliminar fracciones"
    fromExpression := equation.left
    toExpression := createClearedFractionsExpression equation.left
    justification := "Multiplicamos por el mínimo común múltiplo de los denominadores"
    difficulty := 4
    hints := ["Encuentra el mínimo común múltiplo de todos los denominadores",
              "Multiplica todos los términos por este valor"] }

/-- Source `createVariableTranspositionStep`. -/
def createVariableTranspositionStep (equation : EquationAST) : Step :=
  { id := generateStepId
    type := .transposition
    description := "Transponer términos con variables al lado izquierdo"
    fromExpression := equation.left
    toExpression := createVariableTransposedExpression equation
    justification := "Agrupamos todos los términos con variables en un lado"
    difficulty := 2
    hints := ["Mueve todos los términos con variables al lado izquierdo",
              "Cambia el signo cuando muevas términos"] }

/-- Source `createConstantTranspositionStep`. -/
def createConstantTranspositionStep (equation : EquationAST) : Step :=
  { id := generateStepId
    type := .transposition
    description := "Transponer términos constantes al lado derecho"
    fromExpression := equation.left
    toExpression := createConstantTransposedExpression equation
    justification := "Agrupamos todos los términos constantes en el lado derecho"
    difficulty := 2
    hints := ["Mueve todos los números al lado derecho",
              "Recuerda cambiar el signo al transponer"] }

/-- Source `needsTermTransposition`. -/
def needsTermTransposition (equation : EquationAST) : Bool :=
  let rightConstant := getConstantTerm equation.right
  let rightVariable := getVariableCoefficient equation.right equation.vars.head?
  decide (|rightConstant| > epsTol) || decide (|rightVariable| > epsTol)

/-- Source `needsTermCombination`. -/
def needsTermCombination (equation : EquationAST) : Bool :=
  let leftTerms := equation.left.terms
  let rightTerms := equation.right.terms
  decide (1 < (leftTerms.filter (fun t => !t.isConstant)).length) ||
  decide (1 < (leftTerms.filter (fun t => t.isConstant)).length) ||
  decide (1 < (rightTerms.filter (fun t => !t.isConstant)).length) ||
  decide (1 < (rightTerms.filter (fun t => t.isConstant)).length)

/-- Source `needsDistribution`. -/
def needsDistribution (equation : EquationAST) : Bool :=
  (equation.left.terms ++ equation.right.terms).any
    (fun t => !t.isConstant && decide (|t.coefficient| > 1))

/-- Source `hasAlternativeMethod`. -/
def hasAlternativeMethod (equation : EquationAST) : Bool :=
  equation.equationType = .distributive ∨ equation.equationType = .complex ∨
    equation.equationType = .fractional

/-- Source `applyStep`: the transformation is not implemented and returns
the equation unchanged. -/
def applyStep (equation : EquationAST) : EquationAST := equation

/-- Source `generateBasicSteps`. -/
def generateBasicSteps (equation : EquationAST) : List Step :=
  let withTrans :=
    if needsTermTransposition equation then [createTranspositionStep equation] else []
  withTrans ++ [createIsolationStep (applyStep equation)]

/-- Source `generateStandardSteps`. -/
def generateStandardSteps (equation : EquationAST) : List Step :=
  let withCombine :=
    if needsTermCombination equation then [createCombinationStep equation] else []
  withCombine ++
    [createVariableTranspositionStep (applyStep equation),
     createConstantTranspositionStep (applyStep equation),
     createIsolationStep (applyStep equation)]

/-- Source `generateDistributiveSteps`. -/
def generateDistributiveSteps (equation : EquationAST) : List Step :=
  let withDist :=
    if needsDistribution equation then [createDistributiveStep equation] else []
  withDist ++ (createCombinationStep (applyStep equation) ::
    generateStandardSteps (applyStep equation))

/-- Source `generateComplexSteps`. -/
def generateComplexSteps (equation : EquationAST) : List Step :=
  generateDistributiveSteps equation

/-- Source `generateFractionalSteps`. -/
def generateFractionalSteps (equation : EquationAST) : List Step :=
  createClearFractionsStep equation :: generateStandardSteps (applyStep equation)

/-- Source `analyzeAndGenerateSteps`, dispatching on the equation type.
None of the dispatched generators contains a reachable `throw`, so the
computation always succeeds; the `Except` layer mirrors the `try` scope of
`generateOptimalSequence`. -/
def analyzeAndGenerateSteps (equation : EquationAST) : Except String (List Step) :=
  .ok (match equation.equationType with
    | .basic => generateBasicSteps equation
    | .standard => generateStandardSteps equation
    | .distributive => generateDistributiveSteps equation
    | .complex => generateComplexSteps equation
    | .fractional => generateFractionalSteps equation
    | _ => generateStandardSteps equation)

/-- Source `estimateTimeForSteps`: per-type base time multiplied by the step
difficulty, summed. -/
def estimateTimeForSteps (steps : List Step) : Rat :=
  steps.foldl
    (fun total step =>
      let timePerStep : Rat :=
        match step.type with
        | .transposition => 45
        | .combination => 30
        | .distribution => 60
        | .isolation => 30
        | .multiplication => 50
        | _ => 40
      total + timePerStep * step.difficulty) 0

/-- Source `generateFallbackSteps`: the single-step fallback sequence. -/
def generateFallbackSteps (equation : EquationAST) : List Step :=
  [{ id := generateStepId
     type := .combination
     description := "Simplificar la ecuación"
     fromExpression := equation.left
     toExpression := equation.right
     justification := "Paso de resolución básico"
     difficulty := 1
     hints := ["Verifica la ecuación y aplica operaciones básicas"] }]

/-- Source `generateOptimalSequence`: wraps step generation in a
`try/catch`; a successful run is marked optimal, an internal failure
produces the fallback sequence with `isOptimal = false`. -/
def generateOptimalSequence (equation : EquationAST) : StepSequence :=
  match analyzeAndGenerateSteps equation with
  | .ok steps =>
    { steps := steps
      isOptimal := true
      estimatedTime := estimateTimeForSteps steps
      alternativeExists := hasAlternativeMethod equation }
  | .error _ =>
    { steps := generateFallbackSteps equation
      isOptimal := false
      estimatedTime := 300
      alternativeExists := false }

end StepGenerator

-- ============================================================================
-- Input validator (source: EquationValidator, pre-parse checks)
-- ============================================================================

namespace EquationValidator

/-- Source `checkEmptyInput`: `input.trim().length === 0` holds exactly when
every character is whitespace. -/
def checkEmptyInput (input : List Char) : List EquationError :=
  if input.all Char.isWhitespace then
    [⟨.emptyExpr, "La ecuación no puede estar vacía", .critical, none⟩]
  else []

/-- Character class of the source regex `[0-9a-zA-Z+\-*/=().\s]`. -/
def isValidInputChar (c : Char) : Bool :=
  c.isDigit || c.isAlpha || c = '+' || c = '-' || c = '*' || c = '/' ||
    c = '=' || c = '(' || c = ')' || c = '.' || c.isWhitespace

/-- Source `checkValidCharacters`: one `invalid_character` error when any
character falls outside the allowed class (offending characters elided from
the message). -/
def checkValidCharacters (input : List Char) : List EquationError :=
  if input.all isValidInputChar then []
  else [⟨.invalidChar, "Caracteres no válidos encontrados", .high, none⟩]

/-- Source `checkEqualsSign`: exactly one `=` is required; zero and more
than one are distinct syntax errors. -/
def checkEqualsSign (input : List Char) : List EquationError :=
  let equalsCount := input.count '='
  if equalsCount = 0 then
    [⟨.synError, "Falta el signo de igualdad", .high, none⟩]
  else if 1 < equalsCount then
    [⟨.synError, "Solo debe haber un signo de igualdad", .high, none⟩]
  else []

/-- Scan of `checkParenthesesBalance`: returns an error at the first
unmatched `)` (scan aborts there) or when `(`s remain open at the end. -/
def checkParensGo : List Char → Int → Nat → List EquationError
  | [], balance, _ =>
    if 0 < balance then
      [⟨.mismatchedParens, "Faltan paréntesis de cierre", .high, none⟩]
    else []
  | c :: rest, balance, position =>
    if c = '(' then checkParensGo rest (balance + 1) (position + 1)
    else if c = ')' then
      if balance - 1 < 0 then
        [⟨.mismatchedParens, "Paréntesis de cierre sin apertura", .high,
          some ⟨position, position + 1⟩⟩]
      else checkParensGo rest (balance - 1) (position + 1)
    else checkParensGo rest balance (position + 1)

/-- Source `checkParenthesesBalance`. -/
def checkParenthesesBalance (input : List Char) : List EquationError :=
  checkParensGo input 0 0

/-- Operator characters of the source regex `[+\-*/]{2,}`. -/
def isOpChar (c : Char) : Bool :=
  c = '+' || c = '-' || c = '*' || c = '/'

/-- Maximal runs of operator characters, in order (the matches of the
global regex scan). -/
def operatorRuns : List Char → List (List Char)
  | [] => []
  | c :: rest =>
    if isOpChar c then
      (c :: rest.takeWhile isOpChar) :: operatorRuns (rest.dropWhile isOpChar)
    else operatorRuns rest
termination_by l => l.length
decreasing_by
  · exact Nat.lt_succ_of_le (AlgebraicParser.length_dropWhile_le isOpChar rest)
  · simp

/-- Source `checkConsecutiveOperators`: each run of two or more operator
characters is a warning when it is exactly `--` or `++`, otherwise a syntax
error. -/
def checkConsecutiveOperators (input : List Char) :
    List EquationError × List EquationWarning :=
  let runMatches := (operatorRuns input).filter (fun r => 2 ≤ r.length)
  runMatches.foldl
    (fun acc m =>
      if m = ['-', '-'] || m = ['+', '+'] then
        (acc.1, acc.2 ++ [⟨.canBeSimplified, "Operadores consecutivos pueden simplificarse",
                           "Simplifica los signos repetidos"⟩])
      else
        (acc.1 ++ [⟨.synError, "Operadores consecutivos no válidos", .medium, none⟩], acc.2))
    ([], [])

/-- Source `checkVariableUsage`: warnings for non-standard letters and for
multiple distinct letters. -/
def checkVariableUsage (input : List Char) : List EquationWarning :=
  let letters := input.filter Char.isAlpha
  let uniqueVariables := letters.foldl (fun acc c => if acc.contains c then acc else acc ++ [c]) []
  let nonStandard := uniqueVariables.filterMap (fun c =>
    if SUPPORTED_VARIABLES.contains [c] then none
    else some (⟨.unusualFormat, "Variable no estándar", "Considera usar variables estándar"⟩ :
      EquationWarning))
  let multi : List EquationWarning :=
    if 1 < uniqueVariables.length then
      [⟨.highComplexity, "Ecuación con múltiples variables",
        "Las ecuaciones con una variable son más fáciles de resolver"⟩]
    else []
  nonStandard ++ multi

/-- Source `generateInputSuggestions` (keyed on error/warning kinds; the
source additionally greps the Spanish message text of syntax errors for the
word igualdad, which in `validateInput` is exactly the missing-equals
error). -/
def generateInputSuggestions (errors : List EquationError)
    (warnings : List EquationWarning) : List String :=
  (if errors.any (fun e => e.type = .emptyExpr) then
    ["Ingresa una ecuación válida"] else []) ++
  (if errors.any (fun e => e.type = .synError &&
      e.message = "Falta el signo de igualdad") then
    ["Asegúrate de incluir un signo de igualdad en tu ecuación"] else []) ++
  (if errors.any (fun e => e.type = .mismatchedParens) then
    ["Verifica que todos los paréntesis estén balanceados"] else []) ++
  (if warnings.any (fun w => w.type = .unusualFormat) then
    ["Usa variables estándar para mayor claridad"] else [])

/-- Source `validateInput`: runs the six pre-parse checks in order and is
valid exactly when no errors were produced. -/
def validateInput (input : List Char) : ValidationResult :=
  let consecutive := checkConsecutiveOperators input
  let errors :=
    checkEmptyInput input ++ checkValidCharacters input ++ checkEqualsSign input ++
      checkParenthesesBalance input ++ consecutive.1
  let warnings := consecutive.2 ++ checkVariableUsage input
  { isValid := errors.isEmpty
    errors := errors
    warnings := warnings
    suggestions := generateInputSuggestions errors warnings }

end EquationValidator

-- ============================================================================
-- Frontend engine (source: frontend EquationEngine)
-- ============================================================================

namespace EquationEngine

open ExpressionEvaluator

/-- Source `extractVariables` (same first-seen-order extraction as the
parser's `extractVariablesFromExpressions`). -/
def extractVariables (ast : EquationAST) : List (List Char) :=
  AlgebraicParser.extractVariablesFromExpressions [ast.left, ast.right]

/-- Source `calculateComplexity`: term count plus a bonus keyed by the (not
yet re-detected) equation type, capped at 10. -/
def calculateComplexity (ast : EquationAST) : Nat :=
  let termCount := ast.left.terms.length + ast.right.terms.length
  let typeComplexity : Nat :=
    match ast.equationType with
    | .basic => 1
    | .standard => 2
    | .distributive => 3
    | .complex => 5
    | .fractional => 4
    | .multi_step => 6
  min (termCount + typeComplexity) 10

/-- Source `estimateSteps`: base steps keyed by equation type, adjusted for
complexity above 5, capped at `maxSteps`. -/
def estimateSteps (cfg : EngineConfig) (ast : EquationAST) : Nat :=
  let baseSteps : Nat :=
    match ast.equationType with
    | .basic => 2
    | .standard => 3
    | .distributive => 4
    | .complex => 6
    | .fractional => 5
    | .multi_step => 8
  let steps := if 5 < ast.complexity then baseSteps + ast.complexity / 2 else baseSteps
  min steps cfg.maxSteps

/-- Source `analyzeRequiredOperations`. -/
def analyzeRequiredOperations (ast : EquationAST) : List OperationType :=
  match ast.equationType with
  | .basic => [.transposition, .isolation]
  | .standard => [.transposition, .combination, .isolation]
  | .distributive => [.distribution, .combination, .transposition, .isolation]
  | .complex => [.distribution, .combination, .transposition, .isolation]
  | .fractional => [.multiplication, .combination, .isolation]
  | _ => [.combination, .transposition, .isolation]

/-- Source `enhanceAST`: re-detects the type and recomputes variables,
complexity, step estimate and operations.  The source passes the ORIGINAL
(pre-enhancement) `ast` object to each helper, so complexity and step
estimates are computed against the parser defaults (`basic`, complexity 0);
the embedding reproduces that.  Returns the enhanced AST together with the
warning the type detector may push (the source pushes it onto the array
already shared with the returned ParseResult). -/
def enhanceAST (cfg : EngineConfig) (ast : EquationAST) : EquationAST × List EquationWarning :=
  let detected := AlgebraicParser.detectEquationType ast
  ({ ast with
      equationType := detected.1
      vars := extractVariables ast
      complexity := calculateComplexity ast
      metadata := { ast.metadata with
        estimatedSteps := estimateSteps cfg ast
        requiredOperations := analyzeRequiredOperations ast } },
   detected.2)

/-- Source `EquationEngine.parse`: pre-parse validation short-circuits to a
null AST with the validation errors; otherwise the parser result, with the
AST enhanced and the detector's warning appended. -/
def parse (cfg : EngineConfig) (equation : List Char) : ParseResult :=
  let validation := EquationValidator.validateInput equation
  if !validation.isValid then
    { ast := none, tokens := [], errors := validation.errors,
      warnings := validation.warnings, parseTime := 0 }
  else
    let result := AlgebraicParser.parseEquation cfg equation
    match result.ast with
    | some ast =>
      let enhanced := enhanceAST cfg ast
      { result with ast := some enhanced.1, warnings := result.warnings ++ enhanced.2 }
    | none => result

/-- Source `determineSolutionMethod`. -/
def determineSolutionMethod (equation : EquationAST) : SolutionMethod :=
  match equation.equationType with
  | .basic => .direct_isolation
  | .distributive => .distribution_first
  | .fractional => .cross_multiplication
  | _ => .combination_first

/-- Source `solveMathematically(equation, variable)`: accumulate the
variable coefficient and the constant, left side positively and right side
negatively, then solve `coeff * x + constant = 0`; a coefficient of
magnitude below 1e-10 throws (no unique solution). -/
def solveMathematically (equation : EquationAST) (v : List Char) : Except String Rat :=
  let step := fun (sgn : Rat) (acc : Rat × Rat) (term : Term) =>
    if term.varName = some v then (acc.1 + sgn * term.coefficient, acc.2)
    else if term.isConstant then (acc.1, acc.2 + sgn * term.coefficient)
    else acc
  let accLeft := equation.left.terms.foldl (step 1) (0, 0)
  let acc := equation.right.terms.foldl (step (-1)) accLeft
  if |acc.1| < epsTol then .error "La ecuación no tiene solución única"
  else .ok (-acc.2 / acc.1)

/-- The solution fields computed before verification (source: the
`Omit<Solution, 'verificationsSteps' | 'confidence'>` value of
`applySolutionSteps`). -/
structure SolutionBase where
  varName : List Char
  value : Rat
  steps : List Step
  solutionMethod : SolutionMethod
deriving DecidableEq, Repr

/-- Source `applySolutionSteps`: throws when the equation has no variables,
otherwise solves for the first variable. -/
def applySolutionSteps (equation : EquationAST) (steps : List Step) :
    Except String SolutionBase :=
  match equation.vars with
  | [] => .error "No se encontraron variables en la ecuación"
  | v :: _ => do
    let finalValue ← solveMathematically equation v
    pure ⟨v, finalValue, steps, determineSolutionMethod equation⟩

/-- Source `verifySolution`: evaluates both sides at the computed value and
records a single verification step, valid iff the sides agree within
1e-10.  Evaluation throws on a term of a different variable, which
propagates (the display string elides the numeric value). -/
def verifySolution (equation : EquationAST) (solution : SolutionBase) :
    Except String (List VerificationStep) := do
  let leftResult ← evaluateWithSubstitution equation.left solution.varName solution.value
  let rightResult ← evaluateWithSubstitution equation.right solution.varName solution.value
  pure [{ substitution := solution.varName ++ (" = ?".toList)
          leftSideResult := leftResult
          rightSideResult := rightResult
          isValid := decide (|leftResult - rightResult| < epsTol) }]

/-- Source method bonus table of `calculateConfidence`. -/
def methodBonus (m : SolutionMethod) : Rat :=
  match m with
  | .direct_isolation => 0.2
  | .distribution_first => 0.15
  | .combination_first => 0.1
  | .cross_multiplication => 0.15
  | .elimination => 0.05

/-- Source `calculateConfidence`: 0 for an empty verification list, 0 when
any verification step is invalid, otherwise base 0.8 plus the method bonus,
capped at 1.0. -/
def calculateConfidence (solution : SolutionBase) (verification : List VerificationStep) : Rat :=
  if verification.isEmpty then 0
  else if !(verification.all (fun v => v.isValid)) then 0
  else min (0.8 + methodBonus solution.solutionMethod) 1

/-- Source `EquationEngine.solve`: generate steps, apply them (which solves
directly), verify, and attach confidence; any internal throw propagates as
the error value. -/
def solve (equation : EquationAST) : Except String Solution := do
  let stepSequence := StepGenerator.generateOptimalSequence equation
  let base ← applySolutionSteps equation stepSequence.steps
  let verification ← verifySolution equation base
  pure { varName := base.varName
         value := base.value
         steps := base.steps
         verificationsSteps := verification
         solutionMethod := base.solutionMethod
         confidence := calculateConfidence base verification }

end EquationEngine

-- ============================================================================
-- Backend engine (source: backend EquationEngine, simplified mock solver)
-- ============================================================================

namespace Backend

/-- Source backend `solveMockEquation`: the variable coefficient is the sum
of ALL non-constant terms on the left only; constants accumulate per side;
a coefficient of magnitude below 0.001 silently yields 0 instead of an
error; otherwise the solution is rounded to 3 decimals (JS `Math.round`,
i.e. floor of x + 1/2). -/
def solveMockEquation (equation : EquationAST) : Rat :=
  let accL := equation.left.terms.foldl
    (fun (acc : Rat × Rat) term =>
      if term.isConstant then (acc.1, acc.2 + term.coefficient)
      else (acc.1 + term.coefficient, acc.2)) (0, 0)
  let variableCoeff := accL.1
  let leftConstant := accL.2
  let rightConstant := equation.right.terms.foldl
    (fun (acc : Rat) term => if term.isConstant then acc + term.coefficient else acc) 0
  if |variableCoeff| < (0.001 : Rat) then 0
  else
    let result := (rightConstant - leftConstant) / variableCoeff
    (⌊result * 1000 + 1 / 2⌋ : Int) / 1000

/-- Source backend `solve`: always returns a Solution (never an error), with
`variables[0] || 'x'` as the variable, the mock value, simulated
verification against `2x + 3 = 7`, and fixed 0.95 confidence. -/
def solve (equation : EquationAST) : Solution :=
  let v := match equation.vars with
    | [] => "x".toList
    | v :: _ => v
  let value := solveMockEquation equation
  { varName := v
    value := value
    steps := []
    verificationsSteps := [{ substitution := v ++ (" = ?".toList)
                             leftSideResult := value * 2 + 3
                             rightSideResult := 7
                             isValid := decide (|value * 2 + 3 - 7| < (0.001 : Rat)) }]
    solutionMethod := .direct_isolation
    confidence := 0.95 }

end Backend

-- ============================================================================
-- Spec-side definitions used by the refinement-style claims
-- ============================================================================

/-- Like-term relation as defined by the specification data model: two terms
are like terms iff both are constant, or both are non-constant with the same
variable and the same exponent. -/
def LikeTerms (t1 t2 : Term) : Prop :=
  (t1.isConstant = true ∧ t2.isConstant = true) ∨
    (t1.isConstant = false ∧ t2.isConstant = false ∧ t1.varName = t2.varName ∧
      t1.exponent = t2.exponent)

instance (t1 t2 : Term) : Decidable (LikeTerms t1 t2) := by
  unfold LikeTerms; infer_instance

/-- The type-classifier cascade exactly as the specification words it:
zero variable terms, then one variable term with at most two terms, then
multiple variable terms with at most four terms, then the distributive
heuristic, then more than four terms, else standard. -/
def classifierSpec (ast : EquationAST) : EquationType :=
  let allTerms := ast.left.terms ++ ast.right.terms
  let variableTerms := allTerms.filter (fun t => !t.isConstant)
  if variableTerms.length = 0 then .basic
  else if variableTerms.length = 1 ∧ allTerms.length ≤ 2 then .basic
  else if 1 < variableTerms.length ∧ allTerms.length ≤ 4 then .standard
  else if 3 ≤ allTerms.length ∧ ∃ t ∈ allTerms, t.isConstant = false ∧ 1 < |t.coefficient| then
    .distributive
  else if 4 < allTerms.length then .complex
  else .standard

theorem hasDistributivePattern_iff (ast : EquationAST) :
    AlgebraicParser.hasDistributivePattern ast = true ↔
      3 ≤ (ast.left.terms ++ ast.right.terms).length ∧
        ∃ t ∈ ast.left.terms ++ ast.right.terms, t.isConstant = false ∧ 1 < |t.coefficient| := by
  unfold AlgebraicParser.hasDistributivePattern
  dsimp only
  rw [Bool.and_eq_true, List.any_eq_true]
  simp only [decide_eq_true_eq, Bool.and_eq_true, Bool.not_eq_true']
  constructor
  · rintro ⟨h1, t, ht, h2, h3⟩
    exact ⟨h1, t, ht, h3, h2⟩
  · rintro ⟨h1, t, ht, h2, h3⟩
    exact ⟨h1, t, ht, h3, h2⟩

-- ============================================================================
-- Grouping-fold lemmas used by the simplifier claims
-- ============================================================================

theorem insertTerm_append (groups : List Term) (t : Term)
    (h : termKey t ∉ groups.map termKey) : insertTerm groups t = groups ++ [t] := by
  induction groups with
  | nil => rfl
  | cons g gs ih =>
    simp only [List.map_cons, List.mem_cons] at h
    push_neg at h
    unfold insertTerm
    rw [if_neg (fun hh => h.1 hh.symm)]
    rw [ih h.2]
    simp

theorem foldl_insertTerm (ts : List Term) (acc : List Term)
    (h : (acc.map termKey ++ ts.map termKey).Nodup) :
    ts.foldl insertTerm acc = acc ++ ts := by
  induction ts generalizing acc with
  | nil => simp
  | cons t ts ih =>
    simp only [List.foldl_cons]
    have hnotmem : termKey t ∉ acc.map termKey := by
      simp only [List.map_cons, List.nodup_append, List.nodup_cons] at h
      intro hmem
      exact h.2.2 hmem (by simp)
    rw [insertTerm_append acc t hnotmem]
    rw [ih (acc ++ [t]) ?_]
    · simp
    · simp only [List.map_append, List.map_cons, List.map_nil] at h ⊢
      simpa [List.append_assoc] using h

-- ============================================================================
-- Solver-arithmetic helper lemmas
-- ============================================================================

/-- Sum of the coefficients of the terms whose variable field is exactly
`some v` — what the solver accumulates as the variable coefficient. -/
def varSum (v : List Char) : List Term → Rat
  | [] => 0
  | t :: ts => (if t.varName = some v then t.coefficient else 0) + varSum v ts

/-- Sum of the coefficients of the remaining constant terms — what the
solver accumulates as the constant. -/
def constSum (v : List Char) : List Term → Rat
  | [] => 0
  | t :: ts =>
    (if t.varName ≠ some v ∧ t.isConstant = true then t.coefficient else 0) + constSum v ts

theorem solveFold_eq (v : List Char) (sgn : Rat) (ts : List Term) (a b : Rat) :
    ts.foldl (fun (acc : Rat × Rat) (term : Term) =>
      if term.varName = some v then (acc.1 + sgn * term.coefficient, acc.2)
      else if term.isConstant then (acc.1, acc.2 + sgn * term.coefficient)
      else acc) (a, b) =
    (a + sgn * varSum v ts, b + sgn * constSum v ts) := by
  induction ts generalizing a b with
  | nil => simp [varSum, constSum]
  | cons t ts ih =>
    simp only [List.foldl_cons]
    by_cases h1 : t.varName = some v
    · rw [if_pos h1, ih]
      simp [varSum, constSum, h1]
      ring
    · rw [if_neg h1]
      by_cases h2 : t.isConstant
      · rw [if_pos h2, ih]
        simp [varSum, constSum, h1, h2]
        ring
      · rw [if_neg h2, ih]
        simp [varSum, constSum, h1, h2]

theorem except_bind_ok {α β ε : Type} (a : α) (f : α → Except ε β) :
    (Except.ok a : Except ε α) >>= f = f a := rfl

theorem except_pure_bind {α β ε : Type} (a : α) (f : α → Except ε β) :
    (pure a : Except ε α) >>= f = f a := rfl

/-- Evaluation of a well-formed linear side: substituting `x` yields
`varSum * x + constSum`. -/
theorem evalFold_eq (v : List Char) (x : Rat) (ts : List Term)
    (hts : ∀ t ∈ ts, (t.isConstant = true ∧ t.varName = none) ∨
      (t.isConstant = false ∧ t.varName = some v ∧ ExpressionEvaluator.expOrOne t.exponent = 1))
    (r0 : Rat) :
    List.foldlM (fun acc term => do
      let termValue ← ExpressionEvaluator.evaluateTerm term v x
      pure (acc + termValue)) r0 ts = .ok (r0 + (varSum v ts * x + constSum v ts)) := by
  induction ts generalizing r0 with
  | nil => simp [varSum, constSum, pure, Except.pure]
  | cons t ts ih =>
    rcases hts t (by simp) with ⟨hc, hn⟩ | ⟨hc, hn, he⟩
    · have heval : ExpressionEvaluator.evaluateTerm t v x = .ok t.coefficient := by
        unfold ExpressionEvaluator.evaluateTerm
        rw [if_pos hc]
      simp only [List.foldlM_cons, heval, except_bind_ok, except_pure_bind]
      rw [ih (fun t ht => hts t (by simp [ht])) (r0 + t.coefficient)]
      have hnv : ¬ (t.varName = some v) := by simp [hn]
      simp only [varSum, constSum, if_neg hnv, if_pos (And.intro hnv hc)]
      congr 1
      ring
    · have heval : ExpressionEvaluator.evaluateTerm t v x = .ok (t.coefficient * x) := by
        unfold ExpressionEvaluator.evaluateTerm
        rw [if_neg (by simp [hc]), if_pos hn, he]
        norm_num
      simp only [List.foldlM_cons, heval, except_bind_ok, except_pure_bind]
      rw [ih (fun t ht => hts t (by simp [ht])) (r0 + t.coefficient * x)]
      simp only [varSum, constSum, if_pos hn,
        if_neg (by simp [hn] : ¬ (t.varName ≠ some v ∧ t.isConstant = true))]
      congr 1
      ring

/-- Inversion of a successful `solve` call: it decomposes into a successful
`applySolutionSteps`, two successful side evaluations, and the recorded
single verification step with the 1e-10 validity test. -/
theorem solve_ok_structure (equation : EquationAST) (sol : Solution)
    (h : EquationEngine.solve equation = .ok sol) :
    ∃ base l r,
      EquationEngine.applySolutionSteps equation
          (StepGenerator.generateOptimalSequence equation).steps = .ok base ∧
      ExpressionEvaluator.evaluateWithSubstitution equation.left base.varName base.value = .ok l ∧
      ExpressionEvaluator.evaluateWithSubstitution equation.right base.varName base.value = .ok r ∧
      sol = { varName := base.varName, value := base.value, steps := base.steps,
              verificationsSteps := [⟨base.varName ++ (" = ?".toList), l, r,
                decide (|l - r| < epsTol)⟩],
              solutionMethod := base.solutionMethod,
              confidence := EquationEngine.calculateConfidence base
                [⟨base.varName ++ (" = ?".toList), l, r, decide (|l - r| < epsTol)⟩] } := by
  unfold EquationEngine.solve at h
  dsimp only at h
  rcases hA : EquationEngine.applySolutionSteps equation
      (StepGenerator.generateOptimalSequence equation).steps with e | base
  · rw [hA] at h; simp [bind, Except.bind] at h
  · rw [hA] at h
    simp only [bind, Except.bind] at h
    rcases hV : EquationEngine.verifySolution equation base with e | verification
    · rw [hV] at h; simp [pure, Except.pure] at h
    · rw [hV] at h
      simp only [pure, Except.pure, Except.ok.injEq] at h
      unfold EquationEngine.verifySolution at hV
      rcases hL : ExpressionEvaluator.evaluateWithSubstitution equation.left base.varName
          base.value with e | lv
      · rw [hL] at hV; simp [bind, Except.bind] at hV
      · rw [hL] at hV
        simp only [bind, Except.bind] at hV
        rcases hR : ExpressionEvaluator.evaluateWithSubstitution equation.right base.varName
            base.value with e | rv
        · rw [hR] at hV; simp [pure, Except.pure] at hV
        · rw [hR] at hV
          simp only [pure, Except.pure, Except.ok.injEq] at hV
          exact ⟨base, lv, rv, rfl, hL, hR, by rw [← h, ← hV]⟩

-- ============================================================================
-- C2 pipeline lemmas: character classes, the number scanner, parseFloat,
-- tokenizer steps, term-parser steps, the combine/extract/solve/evaluate
-- shapes of the `a·v ± b = 0` input family, and the end-to-end glue
-- ============================================================================

open AlgebraicParser

theorem isDigit_not_ws {c : Char} (h : c.isDigit = true) : c.isWhitespace = false := by
  rcases hb : c.isWhitespace with _ | _
  · rfl
  · exfalso
    have hws := hb
    simp only [Char.isWhitespace, Bool.or_eq_true, decide_eq_true_eq] at hws
    rcases hws with ((h1 | h1) | h1) | h1 <;> rw [h1] at h <;> exact absurd h (by decide)

theorem isDigit_ne_dot {c : Char} (h : c.isDigit = true) : c ≠ '.' := by
  intro heq
  rw [heq] at h
  exact absurd h (by decide)

theorem isDigit_not_alpha {c : Char} (h : c.isDigit = true) : c.isAlpha = false := by
  rcases ha : c.isAlpha with _ | _
  · rfl
  · exfalso
    have hd := h
    simp only [Char.isDigit, Bool.and_eq_true, decide_eq_true_eq] at hd
    have hA := ha
    simp only [Char.isAlpha, Char.isUpper, Char.isLower, Bool.or_eq_true, Bool.and_eq_true,
      decide_eq_true_eq] at hA
    rcases hA with ⟨h1, _⟩ | ⟨h1, _⟩
    · have hn1 : (65 : Nat) ≤ c.val.toNat := h1
      have hn2 : c.val.toNat ≤ (57 : Nat) := hd.2
      omega
    · have hn1 : (97 : Nat) ≤ c.val.toNat := h1
      have hn2 : c.val.toNat ≤ (57 : Nat) := hd.2
      omega

theorem isDigit_parseSymbol {c : Char} (h : c.isDigit = true) :
    AlgebraicParser.parseSymbol c = none := by
  have hne : ∀ d : Char, d.isDigit = false → c ≠ d := by
    intro d hd heq
    rw [heq] at h
    rw [h] at hd
    cases hd
  unfold AlgebraicParser.parseSymbol
  rw [if_neg (hne '+' (by decide)), if_neg (hne '-' (by decide)),
    if_neg (hne '*' (by decide)), if_neg (hne '/' (by decide)),
    if_neg (hne '=' (by decide)), if_neg (hne '(' (by decide)),
    if_neg (hne ')' (by decide))]

/-- Safe continuation for the number scanner: the remainder starts with a
character that is neither a digit nor a dot (or is empty). -/
def NumSafe (rest : List Char) : Prop :=
  ∀ c, rest.head? = some c → c.isDigit = false ∧ c ≠ '.'

theorem numberSpan_digits (ad hd : Bool) (ds rest : List Char)
    (h : ∀ c ∈ ds, c.isDigit = true) (hrest : NumSafe rest) :
    numberSpan ad hd (ds ++ rest) = (ds, rest) := by
  induction ds with
  | nil =>
    rcases rest with _ | ⟨c, cs⟩
    · rfl
    · obtain ⟨h1, h2⟩ := hrest c rfl
      simp only [List.nil_append]
      unfold numberSpan
      rw [if_neg (by simp [h1]), if_neg (by simp [h2])]
  | cons d ds ih =>
    have hd1 : d.isDigit = true := h d (by simp)
    unfold numberSpan
    simp only [List.cons_append]
    rw [if_pos hd1]
    simp only [ih (fun c hc => h c (List.mem_cons_of_mem _ hc))]

theorem numberSpan_decimal (ip fp rest : List Char)
    (hip : ∀ c ∈ ip, c.isDigit = true) (hfp : ∀ c ∈ fp, c.isDigit = true)
    (hrest : NumSafe rest) :
    numberSpan true false (ip ++ '.' :: (fp ++ rest)) = (ip ++ '.' :: fp, rest) := by
  induction ip with
  | nil =>
    simp only [List.nil_append]
    unfold numberSpan
    rw [if_neg (by decide), if_pos (by decide)]
    simp only [numberSpan_digits true true fp rest hfp hrest]
  | cons d ip ih =>
    have hd1 : d.isDigit = true := hip d (by simp)
    unfold numberSpan
    simp only [List.cons_append]
    rw [if_pos hd1]
    simp only [ih (fun c hc => hip c (List.mem_cons_of_mem _ hc))]

theorem takeWhile_head_false (p : Char → Bool) (l : List Char)
    (h : ∀ c, l.head? = some c → p c = false) :
    l.takeWhile p = [] ∧ l.dropWhile p = l := by
  rcases l with _ | ⟨c, cs⟩
  · simp
  · have hc := h c rfl
    simp [List.takeWhile, List.dropWhile, hc]

theorem takeWhile_all_append (p : Char → Bool) (l r : List Char)
    (hl : ∀ c ∈ l, p c = true) (hr : ∀ c, r.head? = some c → p c = false) :
    (l ++ r).takeWhile p = l ∧ (l ++ r).dropWhile p = r := by
  induction l with
  | nil =>
    simpa using takeWhile_head_false p r hr
  | cons c cs ih =>
    have hc : p c = true := hl c (by simp)
    obtain ⟨ht, hd⟩ := ih (fun d hd => hl d (by simp [hd]))
    simp [List.takeWhile, List.dropWhile, hc, ht, hd]

theorem parseFloat_nonneg (s : List Char) : 0 ≤ parseFloat s := by
  unfold parseFloat
  dsimp only
  split
  · positivity
  · positivity

theorem parseFloat_plain (ds : List Char) (h : ∀ c ∈ ds, c.isDigit = true) :
    parseFloat ds = (natValue ds : Rat) := by
  unfold parseFloat
  obtain ⟨ht, hd⟩ := takeWhile_all_append Char.isDigit ds [] (by simpa using h) (by simp)
  rw [List.append_nil] at ht hd
  rw [ht, hd]

theorem parseFloat_decimal (ip fp : List Char)
    (hip : ∀ c ∈ ip, c.isDigit = true) (_hfp : ∀ c ∈ fp, c.isDigit = true) :
    parseFloat (ip ++ '.' :: fp) =
      (natValue ip : Rat) + (natValue fp : Rat) / 10 ^ fp.length := by
  unfold parseFloat
  obtain ⟨ht, hd⟩ := takeWhile_all_append Char.isDigit ip ('.' :: fp) hip
    (by intro c hc; simp at hc; rw [← hc]; decide)
  rw [ht, hd]
  rfl

-- tokenizer step lemmas
theorem tokenizeGo_ws (ad : Bool) (c : Char) (tail : List Char) (p : Nat)
    (h : c.isWhitespace = true) :
    tokenizeGo ad (c :: tail) p = tokenizeGo ad tail (p + 1) := by
  conv_lhs => unfold tokenizeGo
  rw [if_pos h]

theorem tokenizeGo_number (ad : Bool) (c : Char) (tail ds rest : List Char) (p : Nat)
    (hc : c.isDigit = true) (hspan : numberSpan ad false tail = (ds, rest)) :
    tokenizeGo ad (c :: tail) p =
      ⟨⟨.NUMBER, c :: ds, ⟨p, p + (c :: ds).length⟩⟩ ::
          (tokenizeGo ad rest (p + (c :: ds).length)).tokens,
        (tokenizeGo ad rest (p + (c :: ds).length)).errors,
        (tokenizeGo ad rest (p + (c :: ds).length)).warnings⟩ := by
  conv_lhs => unfold tokenizeGo
  rw [if_neg (by simp [isDigit_not_ws hc]), if_pos hc]
  simp only [hspan]

theorem tokenizeGo_letter (ad : Bool) (c : Char) (tail : List Char) (p : Nat)
    (ha : c.isAlpha = true) (hws : c.isWhitespace = false) (hd : c.isDigit = false)
    (htail : ∀ d, tail.head? = some d → d.isAlpha = false)
    (hsup : SUPPORTED_VARIABLES.contains [c] = true) :
    tokenizeGo ad (c :: tail) p =
      ⟨⟨.VARIABLE, [c], ⟨p, p + 1⟩⟩ :: (tokenizeGo ad tail (p + 1)).tokens,
        (tokenizeGo ad tail (p + 1)).errors, (tokenizeGo ad tail (p + 1)).warnings⟩ := by
  conv_lhs => unfold tokenizeGo
  rw [if_neg (by simp [hws]), if_neg (by simp [hd]), if_pos ha]
  obtain ⟨ht, hdw⟩ := takeWhile_head_false Char.isAlpha tail htail
  simp only [ht, hdw, hsup, if_true, List.nil_append, List.length_cons, List.length_nil]

theorem tokenizeGo_symbol (ad : Bool) (c : Char) (tail : List Char) (p : Nat) (tt : TokenType)
    (hws : c.isWhitespace = false) (hd : c.isDigit = false) (ha : c.isAlpha = false)
    (hs : AlgebraicParser.parseSymbol c = some tt) :
    tokenizeGo ad (c :: tail) p =
      ⟨⟨tt, [c], ⟨p, p + 1⟩⟩ :: (tokenizeGo ad tail (p + 1)).tokens,
        (tokenizeGo ad tail (p + 1)).errors, (tokenizeGo ad tail (p + 1)).warnings⟩ := by
  conv_lhs => unfold tokenizeGo
  rw [if_neg (by simp [hws]), if_neg (by simp [hd]), if_neg (by simp [ha]), hs]

theorem tokenizeGo_c2_core (ca cb v sc : Char) (ta tb : List Char) (p : Nat)
    (hca : ca.isDigit = true) (hcb : cb.isDigit = true)
    (hva : v.isAlpha = true) (hvw : v.isWhitespace = false) (hvd : v.isDigit = false)
    (hsup : SUPPORTED_VARIABLES.contains [v] = true)
    (hscw : sc.isWhitespace = false) (hscd : sc.isDigit = false) (hsca : sc.isAlpha = false)
    (hsc : AlgebraicParser.parseSymbol sc = some .OPERATOR)
    (hspanA : numberSpan true false
        (ta ++ v :: ' ' :: sc :: ' ' :: ((cb :: tb) ++ [' ', '=', ' ', '0'])) =
      (ta, v :: ' ' :: sc :: ' ' :: ((cb :: tb) ++ [' ', '=', ' ', '0'])))
    (hspanB : numberSpan true false (tb ++ [' ', '=', ' ', '0']) =
      (tb, [' ', '=', ' ', '0'])) :
    tokenizeGo true ((ca :: ta) ++ v :: ' ' :: sc :: ' ' :: ((cb :: tb) ++ [' ', '=', ' ', '0'])) p =
      ⟨[⟨.NUMBER, ca :: ta, ⟨p, p + (ca :: ta).length⟩⟩,
        ⟨.VARIABLE, [v], ⟨p + (ca :: ta).length, p + (ca :: ta).length + 1⟩⟩,
        ⟨.OPERATOR, [sc], ⟨p + (ca :: ta).length + 1 + 1, p + (ca :: ta).length + 1 + 1 + 1⟩⟩,
        ⟨.NUMBER, cb :: tb, ⟨p + (ca :: ta).length + 1 + 1 + 1 + 1,
          p + (ca :: ta).length + 1 + 1 + 1 + 1 + (cb :: tb).length⟩⟩,
        ⟨.EQUALS, ['='], ⟨p + (ca :: ta).length + 1 + 1 + 1 + 1 + (cb :: tb).length + 1,
          p + (ca :: ta).length + 1 + 1 + 1 + 1 + (cb :: tb).length + 1 + 1⟩⟩,
        ⟨.NUMBER, ['0'], ⟨p + (ca :: ta).length + 1 + 1 + 1 + 1 + (cb :: tb).length + 1 + 1 + 1,
          p + (ca :: ta).length + 1 + 1 + 1 + 1 + (cb :: tb).length + 1 + 1 + 1 + 1⟩⟩],
       [], []⟩ := by
  have hd0 : numberSpan true false ([] : List Char) = ([], []) := rfl
  rw [List.cons_append]
  rw [tokenizeGo_number true ca _ ta _ p hca hspanA]
  rw [tokenizeGo_letter true v _ _ hva hvw hvd (by intro d hd; cases hd; decide) hsup]
  rw [tokenizeGo_ws true ' ' _ _ (by decide)]
  rw [tokenizeGo_symbol true sc _ _ .OPERATOR hscw hscd hsca hsc]
  rw [tokenizeGo_ws true ' ' _ _ (by decide)]
  rw [List.cons_append]
  rw [tokenizeGo_number true cb _ tb _ _ hcb hspanB]
  rw [tokenizeGo_ws true ' ' _ _ (by decide)]
  rw [tokenizeGo_symbol true '=' _ _ .EQUALS (by decide) (by decide) (by decide) (by decide)]
  rw [tokenizeGo_ws true ' ' _ _ (by decide)]
  rw [tokenizeGo_number true '0' _ [] [] _ (by decide) hd0]
  have hnil : ∀ q : Nat, tokenizeGo true [] q = ⟨[], [], []⟩ := by
    intro q
    conv_lhs => unfold tokenizeGo
  simp only [hnil]
  rfl

theorem parseTermsGo_step (tokens : List Token) (i : Nat) (h : i < tokens.length) :
    AlgebraicParser.parseTermsGo tokens i =
      ((match (AlgebraicParser.parseSingleTerm tokens i).term with
        | some t => t :: (AlgebraicParser.parseTermsGo tokens
            (AlgebraicParser.parseSingleTerm tokens i).nextIndex).1
        | none => (AlgebraicParser.parseTermsGo tokens
            (AlgebraicParser.parseSingleTerm tokens i).nextIndex).1),
       (AlgebraicParser.parseSingleTerm tokens i).errors ++
         (AlgebraicParser.parseTermsGo tokens
           (AlgebraicParser.parseSingleTerm tokens i).nextIndex).2) := by
  conv_lhs => unfold AlgebraicParser.parseTermsGo
  rw [dif_pos h]

theorem parseTermsGo_stop (tokens : List Token) (i : Nat) (h : ¬ i < tokens.length) :
    AlgebraicParser.parseTermsGo tokens i = ([], []) := by
  conv_lhs => unfold AlgebraicParser.parseTermsGo
  rw [dif_neg h]

theorem solve_eq_of_components (equation : EquationAST) (v : List Char) (value lv rv : Rat)
    (hvars : equation.vars = [v])
    (hM : EquationEngine.solveMathematically equation v = .ok value)
    (hL : ExpressionEvaluator.evaluateWithSubstitution equation.left v value = .ok lv)
    (hR : ExpressionEvaluator.evaluateWithSubstitution equation.right v value = .ok rv) :
    ∃ sol, EquationEngine.solve equation = .ok sol ∧ sol.varName = v ∧ sol.value = value := by
  have hAp : EquationEngine.applySolutionSteps equation
      (StepGenerator.generateOptimalSequence equation).steps =
      .ok ⟨v, value, (StepGenerator.generateOptimalSequence equation).steps,
        EquationEngine.determineSolutionMethod equation⟩ := by
    unfold EquationEngine.applySolutionSteps
    rw [hvars]
    dsimp only
    rw [hM]
    rfl
  have hVer : EquationEngine.verifySolution equation
      ⟨v, value, (StepGenerator.generateOptimalSequence equation).steps,
        EquationEngine.determineSolutionMethod equation⟩ =
      .ok [⟨v ++ (" = ?".toList), lv, rv, decide (|lv - rv| < epsTol)⟩] := by
    unfold EquationEngine.verifySolution
    dsimp only
    rw [hL, except_bind_ok, hR, except_bind_ok]
    rfl
  refine ⟨⟨v, value, (StepGenerator.generateOptimalSequence equation).steps,
      [⟨v ++ (" = ?".toList), lv, rv, decide (|lv - rv| < epsTol)⟩],
      EquationEngine.determineSolutionMethod equation,
      EquationEngine.calculateConfidence
        ⟨v, value, (StepGenerator.generateOptimalSequence equation).steps,
          EquationEngine.determineSolutionMethod equation⟩
        [⟨v ++ (" = ?".toList), lv, rv, decide (|lv - rv| < epsTol)⟩]⟩, ?_, rfl, rfl⟩
  unfold EquationEngine.solve
  dsimp only
  rw [hAp, except_bind_ok, hVer, except_bind_ok]
  rfl

theorem parseFloat_zero : parseFloat ['0'] = 0 := by
  have h : Char.isDigit '0' = true := by decide
  simp [parseFloat, natValue, List.takeWhile, List.dropWhile, h]

theorem parseExpression_c2_right (s : Span) :
    AlgebraicParser.parseExpression [⟨.NUMBER, ['0'], s⟩] = (⟨[], false⟩, []) := by
  unfold AlgebraicParser.parseExpression AlgebraicParser.parseTerms
  simp only [List.isEmpty_cons, Bool.false_eq_true, if_false]
  rw [parseTermsGo_step _ 0 (by norm_num)]
  have h0 : AlgebraicParser.parseSingleTerm [⟨.NUMBER, ['0'], s⟩] 0 =
      ⟨some ⟨0, none, none, true, ⟨s.start, s.stop⟩⟩, 1, []⟩ := by
    simp [AlgebraicParser.parseSingleTerm, AlgebraicParser.signStep, AlgebraicParser.coeffStep,
      AlgebraicParser.varStep, parseFloat_zero]
  rw [h0]
  dsimp only
  rw [parseTermsGo_stop _ 1 (by norm_num)]
  simp [AlgebraicParser.combineAndSimplifyTerms, insertTerm, epsTol]

theorem parseExpression_c2_left (dsa dsb : List Char) (v sc : Char) (s1 s2 s3 s4 : Span) :
    AlgebraicParser.parseExpression
      [⟨.NUMBER, dsa, s1⟩, ⟨.VARIABLE, [v], s2⟩, ⟨.OPERATOR, [sc], s3⟩, ⟨.NUMBER, dsb, s4⟩] =
    (⟨AlgebraicParser.combineAndSimplifyTerms
        [⟨parseFloat dsa, some [v], some 1, false, ⟨s1.start, s2.stop⟩⟩,
         ⟨(if sc = '-' then (-1 : Rat) else 1) * parseFloat dsb, none, none, true,
           ⟨s3.start, s4.stop⟩⟩],
      false⟩, []) := by
  unfold AlgebraicParser.parseExpression AlgebraicParser.parseTerms
  simp only [List.isEmpty_cons, Bool.false_eq_true, if_false]
  rw [parseTermsGo_step _ 0 (by norm_num)]
  have h0 : AlgebraicParser.parseSingleTerm
      [⟨.NUMBER, dsa, s1⟩, ⟨.VARIABLE, [v], s2⟩, ⟨.OPERATOR, [sc], s3⟩, ⟨.NUMBER, dsb, s4⟩] 0 =
      ⟨some ⟨parseFloat dsa, some [v], some 1, false, ⟨s1.start, s2.stop⟩⟩, 2, []⟩ := by
    simp [AlgebraicParser.parseSingleTerm, AlgebraicParser.signStep, AlgebraicParser.coeffStep,
      AlgebraicParser.varStep]
  rw [h0]
  dsimp only
  rw [parseTermsGo_step _ 2 (by norm_num)]
  have h2 : AlgebraicParser.parseSingleTerm
      [⟨.NUMBER, dsa, s1⟩, ⟨.VARIABLE, [v], s2⟩, ⟨.OPERATOR, [sc], s3⟩, ⟨.NUMBER, dsb, s4⟩] 2 =
      ⟨some ⟨(if sc = '-' then (-1 : Rat) else 1) * parseFloat dsb, none, none, true,
        ⟨s3.start, s4.stop⟩⟩, 4, []⟩ := by
    simp [AlgebraicParser.parseSingleTerm, AlgebraicParser.signStep, AlgebraicParser.coeffStep,
      AlgebraicParser.varStep, List.getElem?_cons]
  rw [h2]
  dsimp only
  rw [parseTermsGo_stop _ 4 (by norm_num)]
  rfl

theorem parseExpression_c2_left_neg (dsa dsb : List Char) (v sc : Char) (s0 s1 s2 s3 s4 : Span) :
    AlgebraicParser.parseExpression
      [⟨.OPERATOR, ['-'], s0⟩, ⟨.NUMBER, dsa, s1⟩, ⟨.VARIABLE, [v], s2⟩, ⟨.OPERATOR, [sc], s3⟩,
        ⟨.NUMBER, dsb, s4⟩] =
    (⟨AlgebraicParser.combineAndSimplifyTerms
        [⟨-1 * parseFloat dsa, some [v], some 1, false, ⟨s0.start, s2.stop⟩⟩,
         ⟨(if sc = '-' then (-1 : Rat) else 1) * parseFloat dsb, none, none, true,
           ⟨s3.start, s4.stop⟩⟩],
      false⟩, []) := by
  unfold AlgebraicParser.parseExpression AlgebraicParser.parseTerms
  simp only [List.isEmpty_cons, Bool.false_eq_true, if_false]
  rw [parseTermsGo_step _ 0 (by norm_num)]
  have h0 : AlgebraicParser.parseSingleTerm
      [⟨.OPERATOR, ['-'], s0⟩, ⟨.NUMBER, dsa, s1⟩, ⟨.VARIABLE, [v], s2⟩, ⟨.OPERATOR, [sc], s3⟩,
        ⟨.NUMBER, dsb, s4⟩] 0 =
      ⟨some ⟨-1 * parseFloat dsa, some [v], some 1, false, ⟨s0.start, s2.stop⟩⟩, 3, []⟩ := by
    simp [AlgebraicParser.parseSingleTerm, AlgebraicParser.signStep, AlgebraicParser.coeffStep,
      AlgebraicParser.varStep, List.getElem?_cons]
  rw [h0]
  dsimp only
  rw [parseTermsGo_step _ 3 (by norm_num)]
  have h3 : AlgebraicParser.parseSingleTerm
      [⟨.OPERATOR, ['-'], s0⟩, ⟨.NUMBER, dsa, s1⟩, ⟨.VARIABLE, [v], s2⟩, ⟨.OPERATOR, [sc], s3⟩,
        ⟨.NUMBER, dsb, s4⟩] 3 =
      ⟨some ⟨(if sc = '-' then (-1 : Rat) else 1) * parseFloat dsb, none, none, true,
        ⟨s3.start, s4.stop⟩⟩, 5, []⟩ := by
    simp [AlgebraicParser.parseSingleTerm, AlgebraicParser.signStep, AlgebraicParser.coeffStep,
      AlgebraicParser.varStep, List.getElem?_cons]
  rw [h3]
  dsimp only
  rw [parseTermsGo_stop _ 5 (by norm_num)]
  rfl

theorem combine_c2 (c1 c2 : Rat) (vv : List Char) (p1 p2 : Span)
    (hne : vv ≠ ("constant".toList)) (h1 : epsTol < |c1|) :
    AlgebraicParser.combineAndSimplifyTerms
      [⟨c1, some vv, some 1, false, p1⟩, ⟨c2, none, none, true, p2⟩] =
      ⟨c1, some vv, some 1, false, p1⟩ ::
        (if epsTol < |c2| then [⟨c2, none, none, true, p2⟩] else []) := by
  unfold AlgebraicParser.combineAndSimplifyTerms
  simp only [List.foldl_cons, List.foldl_nil]
  rw [show insertTerm [] ⟨c1, some vv, some 1, false, p1⟩ = [⟨c1, some vv, some 1, false, p1⟩]
    from rfl]
  unfold insertTerm
  rw [if_neg (by simpa [termKey] using hne)]
  unfold insertTerm
  simp only [List.filter_cons, List.filter_nil]
  rw [if_pos (by simpa using h1)]
  by_cases h2 : epsTol < |c2|
  · rw [if_pos (by simpa using h2), if_pos h2]
  · rw [if_neg (by simpa using h2), if_neg h2]

theorem extract_c2 (L R : Expression) (c1 c2 : Rat) (vv : List Char) (p1 p2 : Span) (keep : Bool)
    (hL : L.terms = ⟨c1, some vv, some 1, false, p1⟩ ::
      (if keep then [⟨c2, none, none, true, p2⟩] else []))
    (hR : R.terms = []) :
    AlgebraicParser.extractVariablesFromExpressions [L, R] = [vv] := by
  unfold AlgebraicParser.extractVariablesFromExpressions
  simp only [List.foldl_cons, List.foldl_nil, hL, hR]
  cases keep <;> simp

theorem solveMath_c2 (equation : EquationAST) (c1 c2 : Rat) (vv : List Char) (p1 p2 : Span)
    (keep : Bool)
    (hleft : equation.left.terms = ⟨c1, some vv, some 1, false, p1⟩ ::
      (if keep then [⟨c2, none, none, true, p2⟩] else []))
    (hright : equation.right.terms = [])
    (h1 : ¬ |c1| < epsTol) :
    EquationEngine.solveMathematically equation vv =
      .ok (-(if keep then c2 else 0) / c1) := by
  unfold EquationEngine.solveMathematically
  dsimp only
  rw [hleft, hright]
  cases keep <;> simp [h1]

theorem evalSide_c2 (e : Expression) (c1 c2 : Rat) (vv : List Char) (p1 p2 : Span) (keep : Bool)
    (x : Rat)
    (hterms : e.terms = ⟨c1, some vv, some 1, false, p1⟩ ::
      (if keep then [⟨c2, none, none, true, p2⟩] else [])) :
    ExpressionEvaluator.evaluateWithSubstitution e vv x =
      .ok (c1 * x + (if keep then c2 else 0)) := by
  unfold ExpressionEvaluator.evaluateWithSubstitution
  rw [hterms]
  cases keep <;>
    simp [List.foldlM_cons, ExpressionEvaluator.evaluateTerm, ExpressionEvaluator.expOrOne,
      except_bind_ok, except_pure_bind, pure, Except.pure]

theorem evalSide_empty (e : Expression) (vv : List Char) (x : Rat) (h : e.terms = []) :
    ExpressionEvaluator.evaluateWithSubstitution e vv x = .ok 0 := by
  unfold ExpressionEvaluator.evaluateWithSubstitution
  rw [h]
  rfl

theorem parseEquation_c2_shape6 (cfg : EngineConfig) (input : List Char) (t0 t1 t2 t3 : Token)
    (se s5 : Span)
    (htok : tokenize cfg input =
      ⟨[t0, t1, t2, t3, ⟨.EQUALS, ['='], se⟩, ⟨.NUMBER, ['0'], s5⟩], [], []⟩)
    (h0 : t0.type ≠ .EQUALS) (h1 : t1.type ≠ .EQUALS) (h2 : t2.type ≠ .EQUALS)
    (h3 : t3.type ≠ .EQUALS) :
    (AlgebraicParser.parseEquation cfg input).ast =
      some (AlgebraicParser.createEquationAST
        (AlgebraicParser.parseExpression [t0, t1, t2, t3]).1
        (AlgebraicParser.parseExpression [⟨.NUMBER, ['0'], s5⟩]).1 input) := by
  unfold AlgebraicParser.parseEquation
  dsimp only
  rw [htok]
  dsimp only
  simp only [List.isEmpty_cons, Bool.false_eq_true, if_false]
  have hfind : AlgebraicParser.findEqualsSign
      [t0, t1, t2, t3, ⟨.EQUALS, ['='], se⟩, ⟨.NUMBER, ['0'], s5⟩] = some 4 := by
    simp [AlgebraicParser.findEqualsSign, List.findIdx?_cons, h0, h1, h2, h3]
  rw [hfind]
  rfl

theorem parseEquation_c2_shape7 (cfg : EngineConfig) (input : List Char) (t0 t1 t2 t3 t4 : Token)
    (se s6 : Span)
    (htok : tokenize cfg input =
      ⟨[t0, t1, t2, t3, t4, ⟨.EQUALS, ['='], se⟩, ⟨.NUMBER, ['0'], s6⟩], [], []⟩)
    (h0 : t0.type ≠ .EQUALS) (h1 : t1.type ≠ .EQUALS) (h2 : t2.type ≠ .EQUALS)
    (h3 : t3.type ≠ .EQUALS) (h4 : t4.type ≠ .EQUALS) :
    (AlgebraicParser.parseEquation cfg input).ast =
      some (AlgebraicParser.createEquationAST
        (AlgebraicParser.parseExpression [t0, t1, t2, t3, t4]).1
        (AlgebraicParser.parseExpression [⟨.NUMBER, ['0'], s6⟩]).1 input) := by
  unfold AlgebraicParser.parseEquation
  dsimp only
  rw [htok]
  dsimp only
  simp only [List.isEmpty_cons, Bool.false_eq_true, if_false]
  have hfind : AlgebraicParser.findEqualsSign
      [t0, t1, t2, t3, t4, ⟨.EQUALS, ['='], se⟩, ⟨.NUMBER, ['0'], s6⟩] = some 5 := by
    simp [AlgebraicParser.findEqualsSign, List.findIdx?_cons, h0, h1, h2, h3, h4]
  rw [hfind]
  rfl

def decimalChars (dotted : Bool) (ip fp : List Char) : List Char :=
  if dotted then ip ++ '.' :: fp else ip

def signOf (s : Bool) : Rat := if s then -1 else 1

def c2Input (sa : Bool) (dsa : List Char) (v : Char) (sb : Bool) (dsb : List Char) :
    List Char :=
  (if sa then ['-'] else []) ++ dsa ++
    v :: ' ' :: (if sb then '-' else '+') :: ' ' :: (dsb ++ [' ', '=', ' ', '0'])

theorem c2_glue (cfg : EngineConfig) (input : List Char) (dsa dsb : List Char) (v sc : Char)
    (s1 s2 s3 s4 se s5 : Span)
    (htok : tokenize cfg input =
      ⟨[⟨.NUMBER, dsa, s1⟩, ⟨.VARIABLE, [v], s2⟩, ⟨.OPERATOR, [sc], s3⟩, ⟨.NUMBER, dsb, s4⟩,
        ⟨.EQUALS, ['='], se⟩, ⟨.NUMBER, ['0'], s5⟩], [], []⟩)
    (hvne : [v] ≠ ("constant".toList))
    (ha : epsTol < parseFloat dsa)
    (hb : parseFloat dsb = 0 ∨ epsTol < parseFloat dsb) :
    ∃ ast sol,
      (AlgebraicParser.parseEquation cfg input).ast = some ast ∧
      EquationEngine.solve ast = .ok sol ∧ sol.varName = [v] ∧
      sol.value = -((if sc = '-' then (-1 : Rat) else 1) * parseFloat dsb) / parseFloat dsa := by
  have hshape := parseEquation_c2_shape6 cfg input _ _ _ _ se s5 htok
    (by intro h; cases h) (by intro h; cases h) (by intro h; cases h) (by intro h; cases h)
  rw [parseExpression_c2_left dsa dsb v sc s1 s2 s3 s4, parseExpression_c2_right s5] at hshape
  dsimp only at hshape
  have hpa : epsTol < |parseFloat dsa| := by
    rw [abs_of_nonneg (parseFloat_nonneg _)]
    exact ha
  rw [combine_c2 (parseFloat dsa) ((if sc = '-' then (-1 : Rat) else 1) * parseFloat dsb)
    [v] ⟨s1.start, s2.stop⟩ ⟨s3.start, s4.stop⟩ hvne hpa] at hshape
  rcases hb with hb0 | hbpos
  · have habs : ¬ epsTol < |(if sc = '-' then (-1 : Rat) else 1) * parseFloat dsb| := by
      rw [hb0, mul_zero, abs_zero]
      norm_num [epsTol]
    rw [if_neg habs] at hshape
    set A := AlgebraicParser.createEquationAST
      ⟨[⟨parseFloat dsa, some [v], some 1, false, ⟨s1.start, s2.stop⟩⟩], false⟩
      ⟨[], false⟩ input with hA
    have hvars : A.vars = [[v]] :=
      extract_c2 A.left A.right (parseFloat dsa)
        ((if sc = '-' then (-1 : Rat) else 1) * parseFloat dsb) [v]
        ⟨s1.start, s2.stop⟩ ⟨s3.start, s4.stop⟩ false rfl rfl
    have hM : EquationEngine.solveMathematically A [v] = .ok 0 := by
      simpa using solveMath_c2 A (parseFloat dsa)
        ((if sc = '-' then (-1 : Rat) else 1) * parseFloat dsb) [v]
        ⟨s1.start, s2.stop⟩ ⟨s3.start, s4.stop⟩ false rfl rfl (not_lt.mpr hpa.le)
    have hLe : ExpressionEvaluator.evaluateWithSubstitution A.left [v] 0 =
        .ok (parseFloat dsa * 0 + (if false then
          ((if sc = '-' then (-1 : Rat) else 1) * parseFloat dsb) else 0)) :=
      evalSide_c2 A.left (parseFloat dsa)
        ((if sc = '-' then (-1 : Rat) else 1) * parseFloat dsb) [v]
        ⟨s1.start, s2.stop⟩ ⟨s3.start, s4.stop⟩ false 0 rfl
    have hRe : ExpressionEvaluator.evaluateWithSubstitution A.right [v] 0 = .ok 0 :=
      evalSide_empty A.right [v] 0 rfl
    obtain ⟨sol, hs, hn, hval⟩ := solve_eq_of_components A [v] 0 _ 0 hvars hM hLe hRe
    refine ⟨A, sol, hshape, hs, hn, ?_⟩
    rw [hval, hb0, mul_zero, neg_zero, zero_div]
  · have habs : epsTol < |(if sc = '-' then (-1 : Rat) else 1) * parseFloat dsb| := by
      rw [abs_mul, show |(if sc = '-' then (-1 : Rat) else 1)| = 1 from by split <;> norm_num,
        one_mul, abs_of_nonneg (parseFloat_nonneg _)]
      exact hbpos
    rw [if_pos habs] at hshape
    set A := AlgebraicParser.createEquationAST
      ⟨[⟨parseFloat dsa, some [v], some 1, false, ⟨s1.start, s2.stop⟩⟩,
        ⟨(if sc = '-' then (-1 : Rat) else 1) * parseFloat dsb, none, none, true,
          ⟨s3.start, s4.stop⟩⟩], false⟩
      ⟨[], false⟩ input with hA
    have hvars : A.vars = [[v]] :=
      extract_c2 A.left A.right (parseFloat dsa)
        ((if sc = '-' then (-1 : Rat) else 1) * parseFloat dsb) [v]
        ⟨s1.start, s2.stop⟩ ⟨s3.start, s4.stop⟩ true rfl rfl
    have hM : EquationEngine.solveMathematically A [v] =
        .ok (-((if sc = '-' then (-1 : Rat) else 1) * parseFloat dsb) / parseFloat dsa) := by
      simpa using solveMath_c2 A (parseFloat dsa)
        ((if sc = '-' then (-1 : Rat) else 1) * parseFloat dsb) [v]
        ⟨s1.start, s2.stop⟩ ⟨s3.start, s4.stop⟩ true rfl rfl (not_lt.mpr hpa.le)
    have hLe := evalSide_c2 A.left (parseFloat dsa)
      ((if sc = '-' then (-1 : Rat) else 1) * parseFloat dsb) [v]
      ⟨s1.start, s2.stop⟩ ⟨s3.start, s4.stop⟩ true
      (-((if sc = '-' then (-1 : Rat) else 1) * parseFloat dsb) / parseFloat dsa) rfl
    have hRe := evalSide_empty A.right [v]
      (-((if sc = '-' then (-1 : Rat) else 1) * parseFloat dsb) / parseFloat dsa) rfl
    obtain ⟨sol, hs, hn, hval⟩ := solve_eq_of_components A [v]
      (-((if sc = '-' then (-1 : Rat) else 1) * parseFloat dsb) / parseFloat dsa) _ 0
      hvars hM hLe hRe
    exact ⟨A, sol, hshape, hs, hn, hval⟩

theorem c2_glue_neg (cfg : EngineConfig) (input : List Char) (dsa dsb : List Char) (v sc : Char)
    (s0 s1 s2 s3 s4 se s5 : Span)
    (htok : tokenize cfg input =
      ⟨[⟨.OPERATOR, ['-'], s0⟩, ⟨.NUMBER, dsa, s1⟩, ⟨.VARIABLE, [v], s2⟩, ⟨.OPERATOR, [sc], s3⟩,
        ⟨.NUMBER, dsb, s4⟩, ⟨.EQUALS, ['='], se⟩, ⟨.NUMBER, ['0'], s5⟩], [], []⟩)
    (hvne : [v] ≠ ("constant".toList))
    (ha : epsTol < parseFloat dsa)
    (hb : parseFloat dsb = 0 ∨ epsTol < parseFloat dsb) :
    ∃ ast sol,
      (AlgebraicParser.parseEquation cfg input).ast = some ast ∧
      EquationEngine.solve ast = .ok sol ∧ sol.varName = [v] ∧
      sol.value = -((if sc = '-' then (-1 : Rat) else 1) * parseFloat dsb) /
        (-1 * parseFloat dsa) := by
  have hshape := parseEquation_c2_shape7 cfg input _ _ _ _ _ se s5 htok
    (by intro h; cases h) (by intro h; cases h) (by intro h; cases h) (by intro h; cases h)
    (by intro h; cases h)
  rw [parseExpression_c2_left_neg dsa dsb v sc s0 s1 s2 s3 s4,
    parseExpression_c2_right s5] at hshape
  dsimp only at hshape
  have hpa : epsTol < |(-1 : Rat) * parseFloat dsa| := by
    rw [neg_one_mul, abs_neg, abs_of_nonneg (parseFloat_nonneg _)]
    exact ha
  rw [combine_c2 (-1 * parseFloat dsa) ((if sc = '-' then (-1 : Rat) else 1) * parseFloat dsb)
    [v] ⟨s0.start, s2.stop⟩ ⟨s3.start, s4.stop⟩ hvne hpa] at hshape
  rcases hb with hb0 | hbpos
  · have habs : ¬ epsTol < |(if sc = '-' then (-1 : Rat) else 1) * parseFloat dsb| := by
      rw [hb0, mul_zero, abs_zero]
      norm_num [epsTol]
    rw [if_neg habs] at hshape
    set A := AlgebraicParser.createEquationAST
      ⟨[⟨-1 * parseFloat dsa, some [v], some 1, false, ⟨s0.start, s2.stop⟩⟩], false⟩
      ⟨[], false⟩ input with hA
    have hvars : A.vars = [[v]] :=
      extract_c2 A.left A.right (-1 * parseFloat dsa)
        ((if sc = '-' then (-1 : Rat) else 1) * parseFloat dsb) [v]
        ⟨s0.start, s2.stop⟩ ⟨s3.start, s4.stop⟩ false rfl rfl
    have hM : EquationEngine.solveMathematically A [v] = .ok 0 := by
      simpa using solveMath_c2 A (-1 * parseFloat dsa)
        ((if sc = '-' then (-1 : Rat) else 1) * parseFloat dsb) [v]
        ⟨s0.start, s2.stop⟩ ⟨s3.start, s4.stop⟩ false rfl rfl (not_lt.mpr hpa.le)
    have hLe : ExpressionEvaluator.evaluateWithSubstitution A.left [v] 0 =
        .ok (-1 * parseFloat dsa * 0 + (if false then
          ((if sc = '-' then (-1 : Rat) else 1) * parseFloat dsb) else 0)) :=
      evalSide_c2 A.left (-1 * parseFloat dsa)
        ((if sc = '-' then (-1 : Rat) else 1) * parseFloat dsb) [v]
        ⟨s0.start, s2.stop⟩ ⟨s3.start, s4.stop⟩ false 0 rfl
    have hRe : ExpressionEvaluator.evaluateWithSubstitution A.right [v] 0 = .ok 0 :=
      evalSide_empty A.right [v] 0 rfl
    obtain ⟨sol, hs, hn, hval⟩ := solve_eq_of_components A [v] 0 _ 0 hvars hM hLe hRe
    refine ⟨A, sol, hshape, hs, hn, ?_⟩
    rw [hval, hb0, mul_zero, neg_zero, zero_div]
  · have habs : epsTol < |(if sc = '-' then (-1 : Rat) else 1) * parseFloat dsb| := by
      rw [abs_mul, show |(if sc = '-' then (-1 : Rat) else 1)| = 1 from by split <;> norm_num,
        one_mul, abs_of_nonneg (parseFloat_nonneg _)]
      exact hbpos
    rw [if_pos habs] at hshape
    set A := AlgebraicParser.createEquationAST
      ⟨[⟨-1 * parseFloat dsa, some [v], some 1, false, ⟨s0.start, s2.stop⟩⟩,
        ⟨(if sc = '-' then (-1 : Rat) else 1) * parseFloat dsb, none, none, true,
          ⟨s3.start, s4.stop⟩⟩], false⟩
      ⟨[], false⟩ input with hA
    have hvars : A.vars = [[v]] :=
      extract_c2 A.left A.right (-1 * parseFloat dsa)
        ((if sc = '-' then (-1 : Rat) else 1) * parseFloat dsb) [v]
        ⟨s0.start, s2.stop⟩ ⟨s3.start, s4.stop⟩ true rfl rfl
    have hM : EquationEngine.solveMathematically A [v] =
        .ok (-((if sc = '-' then (-1 : Rat) else 1) * parseFloat dsb) /
          (-1 * parseFloat dsa)) := by
      simpa using solveMath_c2 A (-1 * parseFloat dsa)
        ((if sc = '-' then (-1 : Rat) else 1) * parseFloat dsb) [v]
        ⟨s0.start, s2.stop⟩ ⟨s3.start, s4.stop⟩ true rfl rfl (not_lt.mpr hpa.le)
    have hLe := evalSide_c2 A.left (-1 * parseFloat dsa)
      ((if sc = '-' then (-1 : Rat) else 1) * parseFloat dsb) [v]
      ⟨s0.start, s2.stop⟩ ⟨s3.start, s4.stop⟩ true
      (-((if sc = '-' then (-1 : Rat) else 1) * parseFloat dsb) / (-1 * parseFloat dsa)) rfl
    have hRe := evalSide_empty A.right [v]
      (-((if sc = '-' then (-1 : Rat) else 1) * parseFloat dsb) / (-1 * parseFloat dsa)) rfl
    obtain ⟨sol, hs, hn, hval⟩ := solve_eq_of_components A [v]
      (-((if sc = '-' then (-1 : Rat) else 1) * parseFloat dsb) / (-1 * parseFloat dsa)) _ 0
      hvars hM hLe hRe
    exact ⟨A, sol, hshape, hs, hn, hval⟩

theorem c2_core (sa sb : Bool) (ca cb v : Char) (ta tb : List Char)
    (hca : ca.isDigit = true) (hcb : cb.isDigit = true)
    (hva : v.isAlpha = true) (hvw : v.isWhitespace = false) (hvd : v.isDigit = false)
    (hsup : SUPPORTED_VARIABLES.contains [v] = true)
    (hvne : [v] ≠ ("constant".toList))
    (hspanA : numberSpan true false
        (ta ++ v :: ' ' :: (if sb then '-' else '+') :: ' ' ::
          ((cb :: tb) ++ [' ', '=', ' ', '0'])) =
      (ta, v :: ' ' :: (if sb then '-' else '+') :: ' ' :: ((cb :: tb) ++ [' ', '=', ' ', '0'])))
    (hspanB : numberSpan true false (tb ++ [' ', '=', ' ', '0']) = (tb, [' ', '=', ' ', '0']))
    (ha : epsTol < parseFloat (ca :: ta))
    (hb : parseFloat (cb :: tb) = 0 ∨ epsTol < parseFloat (cb :: tb)) :
    ∃ ast sol,
      (AlgebraicParser.parseEquation DEFAULT_ENGINE_CONFIG
          (c2Input sa (ca :: ta) v sb (cb :: tb))).ast = some ast ∧
      EquationEngine.solve ast = .ok sol ∧ sol.varName = [v] ∧
      sol.value = -(signOf sb * parseFloat (cb :: tb)) /
        (signOf sa * parseFloat (ca :: ta)) := by
  have hscw : (if sb then '-' else '+').isWhitespace = false := by cases sb <;> decide
  have hscd : (if sb then '-' else '+').isDigit = false := by cases sb <;> decide
  have hsca : (if sb then '-' else '+').isAlpha = false := by cases sb <;> decide
  have hscop : AlgebraicParser.parseSymbol (if sb then '-' else '+') = some .OPERATOR := by
    cases sb <;> decide
  have hsgn : (if (if sb then '-' else '+') = '-' then (-1 : Rat) else 1) = signOf sb := by
    cases sb
    · rw [if_neg (by decide)]
      rfl
    · rw [if_pos rfl]
      rfl
  cases sa
  · have hinput : c2Input false (ca :: ta) v sb (cb :: tb) =
        (ca :: ta) ++ v :: ' ' :: (if sb then '-' else '+') :: ' ' ::
          ((cb :: tb) ++ [' ', '=', ' ', '0']) := by simp [c2Input]
    have htok2 := tokenizeGo_c2_core ca cb v (if sb then '-' else '+') ta tb 0 hca hcb hva hvw
      hvd hsup hscw hscd hsca hscop hspanA hspanB
    rw [← hinput] at htok2
    obtain ⟨ast, sol, h1', h2', h3', h4'⟩ :=
      c2_glue DEFAULT_ENGINE_CONFIG _ (ca :: ta) (cb :: tb) v (if sb then '-' else '+')
        _ _ _ _ _ _ htok2 hvne ha hb
    refine ⟨ast, sol, h1', h2', h3', ?_⟩
    rw [h4', hsgn]
    simp [signOf]
  · have hinput : c2Input true (ca :: ta) v sb (cb :: tb) =
        '-' :: ((ca :: ta) ++ v :: ' ' :: (if sb then '-' else '+') :: ' ' ::
          ((cb :: tb) ++ [' ', '=', ' ', '0'])) := by simp [c2Input]
    have htok2 := tokenizeGo_c2_core ca cb v (if sb then '-' else '+') ta tb 1 hca hcb hva hvw
      hvd hsup hscw hscd hsca hscop hspanA hspanB
    have hsym := tokenizeGo_symbol true '-'
      ((ca :: ta) ++ v :: ' ' :: (if sb then '-' else '+') :: ' ' ::
        ((cb :: tb) ++ [' ', '=', ' ', '0']))
      0 .OPERATOR (by decide) (by decide) (by decide) (by decide)
    rw [htok2] at hsym
    dsimp only at hsym
    rw [← hinput] at hsym
    obtain ⟨ast, sol, h1', h2', h3', h4'⟩ :=
      c2_glue_neg DEFAULT_ENGINE_CONFIG _ (ca :: ta) (cb :: tb) v (if sb then '-' else '+')
        _ _ _ _ _ _ _ hsym hvne ha hb
    refine ⟨ast, sol, h1', h2', h3', ?_⟩
    rw [h4', hsgn]
    simp [signOf]

theorem combine_c2_drop (c1 c2 : Rat) (vv : List Char) (p1 p2 : Span)
    (hne : vv ≠ ("constant".toList)) (h1 : ¬ epsTol < |c1|) (h2 : epsTol < |c2|) :
    AlgebraicParser.combineAndSimplifyTerms
      [⟨c1, some vv, some 1, false, p1⟩, ⟨c2, none, none, true, p2⟩] =
      [⟨c2, none, none, true, p2⟩] := by
  unfold AlgebraicParser.combineAndSimplifyTerms
  simp only [List.foldl_cons, List.foldl_nil]
  rw [show insertTerm [] ⟨c1, some vv, some 1, false, p1⟩ = [⟨c1, some vv, some 1, false, p1⟩]
    from rfl]
  unfold insertTerm
  rw [if_neg (by simpa [termKey] using hne)]
  unfold insertTerm
  simp only [List.filter_cons, List.filter_nil]
  rw [if_neg (by simpa using h1), if_pos (by simpa using h2)]

theorem solve_error_no_vars (equation : EquationAST) (hvars : equation.vars = [])
    (sol : Solution) : EquationEngine.solve equation ≠ .ok sol := by
  intro h
  unfold EquationEngine.solve at h
  dsimp only at h
  have hAp : EquationEngine.applySolutionSteps equation
      (StepGenerator.generateOptimalSequence equation).steps =
      .error "No se encontraron variables en la ecuación" := by
    unfold EquationEngine.applySolutionSteps
    rw [hvars]
  rw [hAp] at h
  simp [bind, Except.bind] at h

def tinyFrac : List Char := ['0', '0', '0', '0', '0', '0', '0', '0', '0', '0', '0', '0', '0', '1']

-- ============================================================================
-- Concrete fixtures used by individual claims
-- ============================================================================

/-- AST of `x = x + 1` (variable coefficient 1 on each side, so the
accumulated coefficient is 0): used against the frontend solver. -/
def eqDegenerateC1 : EquationAST :=
  { left := ⟨[⟨1, some ['x'], some 1, false, ⟨0, 1⟩⟩], false⟩
    right := ⟨[⟨1, some ['x'], some 1, false, ⟨4, 5⟩⟩, ⟨1, none, none, true, ⟨8, 9⟩⟩], false⟩
    metadata := ⟨"eq", "x = x + 1".toList, 0, "beginner", 0, []⟩
    equationType := .basic
    vars := [['x']]
    complexity := 0 }

/-- AST of `2 = 5` (no variable terms at all, accumulated variable
coefficient 0): used against the backend mock solver. -/
def eqConstC1 : EquationAST :=
  { left := ⟨[⟨2, none, none, true, ⟨0, 1⟩⟩], false⟩
    right := ⟨[⟨5, none, none, true, ⟨4, 5⟩⟩], false⟩
    metadata := ⟨"eq", "2 = 5".toList, 0, "beginner", 0, []⟩
    equationType := .basic
    vars := []
    complexity := 0 }

/-- AST of `x^2 = 4`: a single-variable AST whose variable term has
exponent 2. -/
def eqQuadC5 : EquationAST :=
  { left := ⟨[⟨1, some ['x'], some 2, false, ⟨0, 3⟩⟩], false⟩
    right := ⟨[⟨4, none, none, true, ⟨6, 7⟩⟩], false⟩
    metadata := ⟨"eq", "x^2 = 4".toList, 0, "beginner", 0, []⟩
    equationType := .basic
    vars := [['x']]
    complexity := 0 }

/-- Linear single-variable AST of `2x = x + 5`, used as the C5 witness. -/
def eqLinearC5W : EquationAST :=
  { left := ⟨[⟨2, some ['x'], some 1, false, ⟨0, 2⟩⟩], false⟩
    right := ⟨[⟨1, some ['x'], some 1, false, ⟨5, 6⟩⟩, ⟨5, none, none, true, ⟨9, 10⟩⟩], false⟩
    metadata := ⟨"eq", "2x = x + 5".toList, 0, "beginner", 0, []⟩
    equationType := .standard
    vars := [['x']]
    complexity := 0 }

/-- AST of `x + 5 = 10`, used as the C6 witness. -/
def eqC6W : EquationAST :=
  { left := ⟨[⟨1, some ['x'], some 1, false, ⟨0, 1⟩⟩, ⟨5, none, none, true, ⟨4, 5⟩⟩], false⟩
    right := ⟨[⟨10, none, none, true, ⟨8, 10⟩⟩], false⟩
    metadata := ⟨"eq", "x + 5 = 10".toList, 0, "beginner", 0, []⟩
    equationType := .basic
    vars := [['x']]
    complexity := 0 }

/-- Expression `2x + 3x^2` (variable terms with the same variable but
different exponents: NOT like terms per the specification). -/
def exprC9 : Expression :=
  ⟨[⟨2, some ['x'], some 1, false, ⟨0, 2⟩⟩, ⟨3, some ['x'], some 2, false, ⟨5, 9⟩⟩], true⟩

/-- Expression `3x - 1` (distinct grouping keys), used as the C9 witness. -/
def exprC9W : Expression :=
  ⟨[⟨3, some ['x'], some 1, false, ⟨0, 2⟩⟩, ⟨-1, none, none, true, ⟨5, 6⟩⟩], true⟩

-- ============================================================================
-- Claim theorems
-- ============================================================================

/-- C1: when the accumulated variable coefficient of an AST is below 1e-10
in magnitude, solving must fail rather than silently produce a value.  The
frontend solver indeed throws on `x = x + 1`, but the backend engine's
`solveMockEquation` silently returns the Solution value 0 (with confidence
0.95) on `2 = 5` — the very defaulting the spec flags as a bug. -/
theorem c1_backend_returns_zero_on_degenerate_coefficient :
    EquationEngine.solve eqDegenerateC1 = .error "La ecuación no tiene solución única" ∧
      (Backend.solve eqConstC1).value = 0 ∧ (Backend.solve eqConstC1).confidence = 0.95 := by
  refine ⟨?_, ?_, ?_⟩
  · simp +decide [EquationEngine.solve, EquationEngine.applySolutionSteps,
      EquationEngine.solveMathematically, eqDegenerateC1, epsTol, bind, Except.bind,
      pure, Except.pure]
  · simp +decide [Backend.solve, Backend.solveMockEquation, eqConstC1]
    norm_num
  · simp [Backend.solve, eqConstC1]

/-- C4: the claim (and the tokenizer's own inline comment) says a VARIABLE
token is a single letter, but the scanner consumes a maximal letter run:
on `xy=2` the first token is the two-letter VARIABLE `xy`. -/
theorem c4_multiletter_variable_token :
    (AlgebraicParser.tokenize DEFAULT_ENGINE_CONFIG ("xy=2".toList)).tokens =
      [⟨.VARIABLE, ['x', 'y'], ⟨0, 2⟩⟩, ⟨.EQUALS, ['='], ⟨2, 3⟩⟩, ⟨.NUMBER, ['2'], ⟨3, 4⟩⟩] := by
  simp [AlgebraicParser.tokenize, AlgebraicParser.tokenizeGo, AlgebraicParser.numberSpan,
    AlgebraicParser.parseSymbol, SUPPORTED_VARIABLES]

/-- C3 counterexample: on input `=5` the parser records an
`empty_expression` error for the empty left side and STILL returns a
non-null AST, refuting "whenever the result contains errors the ast is
null". -/
theorem c3_counterexample_errors_with_ast :
    (AlgebraicParser.parseEquation DEFAULT_ENGINE_CONFIG ("=5".toList)).ast ≠ none ∧
      (AlgebraicParser.parseEquation DEFAULT_ENGINE_CONFIG ("=5".toList)).errors ≠ [] := by
  simp [AlgebraicParser.parseEquation, AlgebraicParser.tokenize, AlgebraicParser.tokenizeGo,
    AlgebraicParser.numberSpan, AlgebraicParser.parseSymbol, AlgebraicParser.findEqualsSign,
    AlgebraicParser.parseExpression, AlgebraicParser.parseTerms, AlgebraicParser.parseTermsGo,
    AlgebraicParser.parseSingleTerm, AlgebraicParser.signStep, AlgebraicParser.coeffStep,
    AlgebraicParser.varStep, AlgebraicParser.combineAndSimplifyTerms, insertTerm, termKey,
    AlgebraicParser.createEquationAST, AlgebraicParser.createEmptyExpression,
    AlgebraicParser.extractVariablesFromExpressions, parseFloat, natValue, epsTol,
    List.findIdx?]

/-- C3 amended: `parseEquation` returns a null AST exactly when the token
list is empty or no equals token exists; all other error kinds (invalid
characters, empty sides, bad sub-terms) are reported alongside a non-null
AST. -/
theorem c3_amended_null_ast_iff (cfg : EngineConfig) (input : List Char) :
    (AlgebraicParser.parseEquation cfg input).ast = none ↔
      ((AlgebraicParser.tokenize cfg input).tokens = [] ∨
        AlgebraicParser.findEqualsSign (AlgebraicParser.tokenize cfg input).tokens = none) := by
  unfold AlgebraicParser.parseEquation
  dsimp only
  split
  · simp_all [List.isEmpty_iff]
  · split <;> simp_all [List.isEmpty_iff]

/-- C5 counterexample: `x^2 = 4` is a single-variable AST on which solve
returns a Solution (value 4, treating the quadratic term as linear), yet
substituting gives 16 vs 4, so the verification step is invalid — refuting
"the attached verification step has isValid = true".  (Confidence is then
0, consistent with the claim's second half.) -/
theorem c5_counterexample_quadratic_verification_fails :
    (EquationEngine.solve eqQuadC5).toOption.map
        (fun s => (s.verificationsSteps.all (fun v => v.isValid), s.value, s.confidence)) =
      some (false, 4, 0) := by
  simp +decide [EquationEngine.solve, EquationEngine.applySolutionSteps,
    EquationEngine.solveMathematically, EquationEngine.verifySolution,
    EquationEngine.calculateConfidence, EquationEngine.determineSolutionMethod,
    EquationEngine.methodBonus, ExpressionEvaluator.evaluateWithSubstitution,
    ExpressionEvaluator.evaluateTerm, ExpressionEvaluator.expOrOne,
    StepGenerator.generateOptimalSequence, StepGenerator.analyzeAndGenerateSteps,
    StepGenerator.generateBasicSteps, StepGenerator.needsTermTransposition,
    StepGenerator.createTranspositionStep, StepGenerator.createIsolationStep,
    StepGenerator.estimateTimeForSteps, StepGenerator.hasAlternativeMethod,
    StepGenerator.applyStep, StepGenerator.generateTranspositionDescription,
    StepGenerator.createTransposedExpression, StepGenerator.createIsolatedExpression,
    StepGenerator.generateStepId, ExpressionEvaluator.simplifyExpression,
    ExpressionEvaluator.getConstantTerm, ExpressionEvaluator.getVariableCoefficient,
    insertTerm, termKey, eqQuadC5, epsTol, bind, Except.bind, pure, Except.pure,
    Except.toOption, Except.map]
  norm_num

/-- C5 amended: for every single-variable AST whose terms satisfy the Term
invariant (isConstant iff no variable) and whose variable terms are linear
(the evaluator's `exponent || 1` equals 1), any Solution returned by solve
passes verification (`isValid = true`); and unconditionally, whenever the
verification of a returned Solution fails, its confidence is 0. -/
theorem c5_amended_linear_verification :
    (∀ (equation : EquationAST) (v : List Char),
      equation.vars.head? = some v →
      (∀ t ∈ equation.left.terms ++ equation.right.terms,
        (t.isConstant = true ∧ t.varName = none) ∨
        (t.isConstant = false ∧ t.varName = some v ∧
          ExpressionEvaluator.expOrOne t.exponent = 1)) →
      ∀ sol, EquationEngine.solve equation = .ok sol →
        sol.verificationsSteps.all (fun vs => vs.isValid) = true) ∧
    (∀ (equation : EquationAST) (sol : Solution),
      EquationEngine.solve equation = .ok sol →
      sol.verificationsSteps.all (fun vs => vs.isValid) = false →
      sol.confidence = 0) := by
  constructor
  · intro equation v hv hterms sol hsolve
    obtain ⟨base, l, r, hA, hL, hR, hsol⟩ := solve_ok_structure equation sol hsolve
    unfold EquationEngine.applySolutionSteps at hA
    rcases hvars : equation.vars with _ | ⟨v0, rest⟩
    · rw [hvars] at hA
      simp at hA
    · rw [hvars] at hA
      rw [hvars] at hv
      simp only [List.head?_cons, Option.some.injEq] at hv
      have hv2 : v = v0 := hv.symm
      subst hv2
      simp only [bind, Except.bind] at hA
      rcases hM : EquationEngine.solveMathematically equation v with e | value
      · rw [hM] at hA
        simp at hA
      · rw [hM] at hA
        simp only [pure, Except.pure, Except.ok.injEq] at hA
        unfold EquationEngine.solveMathematically at hM
        dsimp only at hM
        simp only [solveFold_eq] at hM
        split at hM
        · exact absurd hM (by simp)
        · rename_i hcase
          simp only [Except.ok.injEq] at hM
          set A := 0 + 1 * varSum v equation.left.terms + -1 * varSum v equation.right.terms
            with hAdef
          set C := 0 + 1 * constSum v equation.left.terms + -1 * constSum v equation.right.terms
            with hCdef
          have hAne : A ≠ 0 := by
            intro h0
            rw [h0] at hcase
            exact hcase (by norm_num [epsTol])
          unfold ExpressionEvaluator.evaluateWithSubstitution at hL hR
          rw [← hA] at hL hR
          dsimp only at hL hR
          rw [evalFold_eq v value equation.left.terms
            (fun t ht => hterms t (by simp [ht]))] at hL
          rw [evalFold_eq v value equation.right.terms
            (fun t ht => hterms t (by simp [ht]))] at hR
          simp only [Except.ok.injEq] at hL hR
          have hdiff : l - r = 0 := by
            rw [← hL, ← hR, ← hM]
            field_simp
            rw [hAdef, hCdef]
            ring
          rw [hsol]
          simp only [List.all_cons, List.all_nil, Bool.and_true]
          rw [hdiff]
          norm_num [epsTol]
  · intro equation sol hsolve hall
    obtain ⟨base, l, r, hA, hL, hR, hsol⟩ := solve_ok_structure equation sol hsolve
    rw [hsol] at hall ⊢
    simp only [List.all_cons, List.all_nil, Bool.and_true] at hall
    dsimp only
    unfold EquationEngine.calculateConfidence
    simp [hall]

/-- C5 witness: on the linear AST of `2x = x + 5` the solver succeeds and
the amended theorem yields a passing verification. -/
theorem c5_amended_witness :
    (EquationEngine.solve eqLinearC5W).toOption.map
        (fun s => s.verificationsSteps.all (fun vs => vs.isValid)) = some true := by
  rcases h : EquationEngine.solve eqLinearC5W with e | sol
  · exfalso
    have hval := h
    simp +decide [EquationEngine.solve, EquationEngine.applySolutionSteps,
      EquationEngine.solveMathematically, EquationEngine.verifySolution,
      EquationEngine.calculateConfidence, EquationEngine.determineSolutionMethod,
      EquationEngine.methodBonus, ExpressionEvaluator.evaluateWithSubstitution,
      ExpressionEvaluator.evaluateTerm, ExpressionEvaluator.expOrOne,
      StepGenerator.generateOptimalSequence, StepGenerator.analyzeAndGenerateSteps,
      StepGenerator.generateStandardSteps, StepGenerator.needsTermCombination,
      StepGenerator.createVariableTranspositionStep, StepGenerator.createConstantTranspositionStep,
      StepGenerator.createIsolationStep, StepGenerator.createCombinationStep,
      StepGenerator.estimateTimeForSteps, StepGenerator.hasAlternativeMethod,
      StepGenerator.applyStep, StepGenerator.createVariableTransposedExpression,
      StepGenerator.createConstantTransposedExpression, StepGenerator.createIsolatedExpression,
      StepGenerator.generateStepId, ExpressionEvaluator.simplifyExpression,
      ExpressionEvaluator.getConstantTerm, ExpressionEvaluator.getVariableCoefficient,
      insertTerm, termKey, eqLinearC5W, epsTol, bind, Except.bind, pure, Except.pure] at hval
    norm_num at hval
    injection hval
  · have hall := c5_amended_linear_verification.1 eqLinearC5W ['x'] (by decide) (by decide) sol h
    simp only [Except.toOption, Option.map]
    exact congrArg some hall

/-- C6: every Solution the frontend solver returns carries confidence 0
when some verification step is invalid, and otherwise 0.8 plus the
method-keyed bonus capped at 1.0; in all cases the confidence lies in
[0, 1]. -/
theorem c6_confidence_formula (equation : EquationAST) (sol : Solution)
    (h : EquationEngine.solve equation = .ok sol) :
    sol.confidence = (if sol.verificationsSteps.all (fun v => v.isValid) then
        min (0.8 + EquationEngine.methodBonus sol.solutionMethod) 1 else 0) ∧
      0 ≤ sol.confidence ∧ sol.confidence ≤ 1 := by
  unfold EquationEngine.solve at h
  dsimp only at h
  rcases hA : EquationEngine.applySolutionSteps equation
      (StepGenerator.generateOptimalSequence equation).steps with e | base
  · rw [hA] at h
    simp [bind, Except.bind] at h
  · rw [hA] at h
    simp only [bind, Except.bind] at h
    rcases hV : EquationEngine.verifySolution equation base with e | verification
    · rw [hV] at h
      simp [pure, Except.pure] at h
    · rw [hV] at h
      simp only [pure, Except.pure, Except.ok.injEq] at h
      subst h
      obtain ⟨l, r, hver⟩ : ∃ l r, verification =
          [⟨base.varName ++ (" = ?".toList), l, r, decide (|l - r| < epsTol)⟩] := by
        unfold EquationEngine.verifySolution at hV
        rcases hL : ExpressionEvaluator.evaluateWithSubstitution equation.left base.varName
            base.value with e | lv
        · rw [hL] at hV; simp [bind, Except.bind] at hV
        · rw [hL] at hV
          simp only [bind, Except.bind] at hV
          rcases hR : ExpressionEvaluator.evaluateWithSubstitution equation.right base.varName
              base.value with e | rv
          · rw [hR] at hV; simp [pure, Except.pure] at hV
          · rw [hR] at hV
            simp only [pure, Except.pure, Except.ok.injEq] at hV
            exact ⟨lv, rv, hV.symm⟩
      have hbonus : (0.05 : Rat) ≤ EquationEngine.methodBonus base.solutionMethod ∧
          EquationEngine.methodBonus base.solutionMethod ≤ 0.2 := by
        cases base.solutionMethod <;> norm_num [EquationEngine.methodBonus]
      dsimp only
      unfold EquationEngine.calculateConfidence
      rw [hver]
      simp only [List.isEmpty_cons, List.all_cons, List.all_nil, Bool.and_true, if_false]
      rcases hval : decide (|l - r| < epsTol) with _ | _
      · simp only [Bool.not_false, if_true]
        refine ⟨rfl, le_refl 0, by norm_num⟩
      · simp only [Bool.not_true, if_false]
        refine ⟨rfl, ?_, ?_⟩
        · refine le_min ?_ (by norm_num)
          linarith [hbonus.1]
        · exact min_le_right _ _

/-- C6 witness: on the AST of `x + 5 = 10` the solver succeeds and the
confidence bound of C6 holds at that concrete Solution. -/
theorem c6_confidence_witness :
    (EquationEngine.solve eqC6W).toOption.map
        (fun s => decide (0 ≤ s.confidence ∧ s.confidence ≤ 1)) = some true := by
  rcases h : EquationEngine.solve eqC6W with e | sol
  · exfalso
    have hval := h
    simp +decide [EquationEngine.solve, EquationEngine.applySolutionSteps,
      EquationEngine.solveMathematically, EquationEngine.verifySolution,
      EquationEngine.calculateConfidence, EquationEngine.determineSolutionMethod,
      EquationEngine.methodBonus, ExpressionEvaluator.evaluateWithSubstitution,
      ExpressionEvaluator.evaluateTerm, ExpressionEvaluator.expOrOne,
      StepGenerator.generateOptimalSequence, StepGenerator.analyzeAndGenerateSteps,
      StepGenerator.generateBasicSteps, StepGenerator.needsTermTransposition,
      StepGenerator.createTranspositionStep, StepGenerator.createIsolationStep,
      StepGenerator.estimateTimeForSteps, StepGenerator.hasAlternativeMethod,
      StepGenerator.applyStep, StepGenerator.generateTranspositionDescription,
      StepGenerator.createTransposedExpression, StepGenerator.createIsolatedExpression,
      StepGenerator.generateStepId, ExpressionEvaluator.simplifyExpression,
      ExpressionEvaluator.getConstantTerm, ExpressionEvaluator.getVariableCoefficient,
      insertTerm, termKey, eqC6W, epsTol, bind, Except.bind, pure, Except.pure] at hval
    norm_num at hval
    injection hval
  · have hc := c6_confidence_formula eqC6W sol h
    simp only [Except.toOption, Option.map]
    exact congrArg some (decide_eq_true ⟨hc.2.1, hc.2.2⟩)

/-- C7: the classifier implements, first match wins, exactly the rule
cascade of the claim, and pushes a warning exactly in the
zero-variable-terms case. -/
theorem c7_classifier_cascade (ast : EquationAST) :
    (AlgebraicParser.detectEquationType ast).1 = classifierSpec ast ∧
      ((AlgebraicParser.detectEquationType ast).2 ≠ [] ↔
        ((ast.left.terms ++ ast.right.terms).filter (fun t => !t.isConstant)).length = 0) := by
  constructor
  · unfold AlgebraicParser.detectEquationType classifierSpec
    dsimp only
    simp only [hasDistributivePattern_iff, decide_eq_true_eq]
    split_ifs <;> simp_all
  · unfold AlgebraicParser.detectEquationType
    dsimp only
    split_ifs <;> simp_all

/-- C8: step generation is total — for every AST the generator returns a
StepSequence that is either marked optimal, or is exactly the one-step
fallback sequence with isOptimal = false. -/
theorem c8_step_generation_total (equation : EquationAST) :
    (StepGenerator.generateOptimalSequence equation).isOptimal = true ∨
      ((StepGenerator.generateOptimalSequence equation).steps =
          StepGenerator.generateFallbackSteps equation ∧
        (StepGenerator.generateOptimalSequence equation).isOptimal = false ∧
        (StepGenerator.generateOptimalSequence equation).steps.length = 1) := by
  unfold StepGenerator.generateOptimalSequence
  split
  · left; rfl
  · right
    refine ⟨rfl, rfl, ?_⟩
    simp [StepGenerator.generateFallbackSteps]

/-- C9 counterexample: `2x + 3x^2` has no two like terms (the exponents
differ) and no near-zero coefficient, yet simplifyExpression merges the two
terms into `5x` — the term multiset is not preserved, refuting idempotence
under the specification's like-term definition. -/
theorem c9_counterexample_exponent_merge :
    exprC9.terms.Pairwise (fun a b => ¬ LikeTerms a b) ∧
      (∀ t ∈ exprC9.terms, epsTol < |t.coefficient|) ∧
      Multiset.ofList (ExpressionEvaluator.simplifyExpression exprC9).terms ≠
        Multiset.ofList exprC9.terms := by
  refine ⟨?_, ?_, ?_⟩
  · simp [exprC9, LikeTerms]
  · intro t ht
    simp [exprC9] at ht
    rcases ht with h | h <;> rw [h] <;> norm_num [epsTol]
  · intro hcontra
    have hcard := congrArg Multiset.card hcontra
    have hterms : (ExpressionEvaluator.simplifyExpression exprC9).terms =
        [⟨5, some ['x'], some 1, false, ⟨0, 2⟩⟩] := by
      simp +decide [ExpressionEvaluator.simplifyExpression, exprC9, insertTerm, termKey, epsTol]
      norm_num
    rw [hterms] at hcard
    simp [exprC9] at hcard

/-- C9 amended: simplification is the identity on the term list whenever no
two terms share a grouping key (the same variable, or both constant —
regardless of exponent) and every coefficient exceeds 1e-10 in
magnitude. -/
theorem c9_amended_simplify_identity (e : Expression)
    (hkeys : (e.terms.map termKey).Nodup)
    (hcoef : ∀ t ∈ e.terms, epsTol < |t.coefficient|) :
    (ExpressionEvaluator.simplifyExpression e).terms = e.terms := by
  unfold ExpressionEvaluator.simplifyExpression
  split
  · rfl
  · dsimp only
    rw [foldl_insertTerm e.terms [] (by simpa using hkeys)]
    simp only [List.nil_append]
    rw [List.filter_eq_self.mpr]
    intro t ht
    simpa using hcoef t ht

/-- C9 witness: on `3x - 1` (distinct keys, large coefficients) the amended
idempotence theorem applies and simplification keeps the term list. -/
theorem c9_amended_witness :
    (ExpressionEvaluator.simplifyExpression exprC9W).terms = exprC9W.terms :=
  c9_amended_simplify_identity exprC9W (by simp +decide [exprC9W, termKey])
    (by
      intro t ht
      simp [exprC9W] at ht
      rcases ht with h | h <;> rw [h] <;> norm_num [epsTol])

/-- C10: any input containing more than one equals sign is rejected by the
engine's pre-parse validation: the parse result has a null AST and contains
a syntax error. -/
theorem c10_multiple_equals_rejected (cfg : EngineConfig) (input : List Char)
    (h : 1 < input.count '=') :
    (EquationEngine.parse cfg input).ast = none ∧
      ∃ e ∈ (EquationEngine.parse cfg input).errors, e.type = .synError := by
  have heq : EquationValidator.checkEqualsSign input =
      [⟨.synError, "Solo debe haber un signo de igualdad", .high, none⟩] := by
    unfold EquationValidator.checkEqualsSign
    have h0 : ¬ (input.count '=' = 0) := by omega
    simp [h0, h]
  have hmem : (⟨.synError, "Solo debe haber un signo de igualdad", .high, none⟩ : EquationError) ∈
      (EquationValidator.validateInput input).errors := by
    unfold EquationValidator.validateInput
    simp [heq]
  have hval : (EquationValidator.validateInput input).isValid = false := by
    have hne : (EquationValidator.validateInput input).errors ≠ [] :=
      List.ne_nil_of_mem hmem
    unfold EquationValidator.validateInput at hne ⊢
    dsimp only at hne ⊢
    rw [Bool.eq_false_iff]
    intro htrue
    exact hne (List.isEmpty_iff.mp htrue)
  unfold EquationEngine.parse
  dsimp only
  rw [hval]
  simp only [Bool.not_false, if_true]
  exact ⟨trivial, ⟨_, hmem, rfl⟩⟩

/-- C10 witness: the concrete input `2x=3x=4` is rejected with a null AST
and a syntax error. -/
theorem c10_multiple_equals_witness :
    (EquationEngine.parse DEFAULT_ENGINE_CONFIG ("2x=3x=4".toList)).ast = none ∧
      ∃ e ∈ (EquationEngine.parse DEFAULT_ENGINE_CONFIG ("2x=3x=4".toList)).errors,
        e.type = .synError :=
  c10_multiple_equals_rejected DEFAULT_ENGINE_CONFIG ("2x=3x=4".toList) (by decide)


/-- C2 counterexample: the round-trip claim fails as stated, because it
quantifies over every coefficient `a ≠ 0`: on `0.00000000000001x + 5 = 0`
the coefficient `1e-14` is nonzero and the parser returns an AST, yet
`combineAndSimplifyTerms`'s `|coefficient| > 1e-10` filter deletes the
variable term, so the AST has no variables and `solve` throws
(`No se encontraron variables en la ecuación`) instead of returning `-b/a`. -/
theorem c2_counterexample_tiny_coefficient :
    parseFloat ("0.00000000000001".toList) ≠ 0 ∧
    ∃ ast,
      (AlgebraicParser.parseEquation DEFAULT_ENGINE_CONFIG
          ("0.00000000000001x + 5 = 0".toList)).ast = some ast ∧
      ∀ sol, EquationEngine.solve ast ≠ .ok sol := by
  have hpfa : parseFloat ('0' :: '.' :: tinyFrac) = 1 / 10 ^ 14 := by
    rw [show ('0' :: '.' :: tinyFrac) = ['0'] ++ '.' :: tinyFrac from rfl,
      parseFloat_decimal ['0'] tinyFrac (by decide) (by decide),
      show natValue ['0'] = 0 from rfl, show natValue tinyFrac = 1 from rfl,
      show tinyFrac.length = 14 from rfl]
    norm_num
  have hpfb : parseFloat ['5'] = 5 := by
    rw [parseFloat_plain ['5'] (by decide), show natValue ['5'] = 5 from rfl]
    norm_num
  constructor
  · rw [show ("0.00000000000001".toList) = '0' :: '.' :: tinyFrac from by decide, hpfa]
    norm_num
  · rw [show ("0.00000000000001x + 5 = 0".toList) =
      ('0' :: ('.' :: tinyFrac)) ++ 'x' :: ' ' :: '+' :: ' ' ::
        (('5' :: []) ++ [' ', '=', ' ', '0']) from by decide]
    have htok2 := tokenizeGo_c2_core '0' '5' 'x' '+' ('.' :: tinyFrac) [] 0 (by decide)
      (by decide) (by decide) (by decide) (by decide) (by decide) (by decide) (by decide)
      (by decide) (by decide) (by decide) (by decide)
    have hshape := parseEquation_c2_shape6 DEFAULT_ENGINE_CONFIG _ _ _ _ _ _ _ htok2
      (by intro h; cases h) (by intro h; cases h) (by intro h; cases h) (by intro h; cases h)
    rw [parseExpression_c2_left ('0' :: '.' :: tinyFrac) ('5' :: []) 'x' '+' _ _ _ _,
      parseExpression_c2_right _] at hshape
    dsimp only at hshape
    have hdrop1 : ¬ epsTol < |parseFloat ('0' :: '.' :: tinyFrac)| := by
      rw [hpfa, abs_of_nonneg (by norm_num)]
      norm_num [epsTol]
    have hdrop2 : epsTol < |(if '+' = '-' then (-1 : Rat) else 1) * parseFloat ('5' :: [])| := by
      rw [if_neg (by decide), one_mul, hpfb, abs_of_nonneg (by norm_num)]
      norm_num [epsTol]
    rw [combine_c2_drop _ _ _ _ _ (by decide) hdrop1 hdrop2] at hshape
    refine ⟨_, hshape, ?_⟩
    intro sol
    exact solve_error_no_vars _ rfl sol

/-- C2 amended: for every decimal-digit coefficient string `a` (optional
minus sign, optional fractional part) with value above the 1e-10 simplifier
tolerance, decimal constant string `b` with value zero or above 1e-10,
and supported variable `v`, parsing the rendered input `a·v ± b = 0` with
the default config yields an AST whose solve succeeds and returns exactly
`-b/a` for `v` — exact rational equality, hence well within the claimed
1e-6 tolerance. -/
theorem c2_amended_roundtrip (sa sb da db : Bool) (ipa fpa ipb fpb : List Char) (v : Char)
    (hipa : ipa ≠ []) (hipb : ipb ≠ [])
    (hipaD : ∀ c ∈ ipa, c.isDigit = true) (hfpaD : ∀ c ∈ fpa, c.isDigit = true)
    (hipbD : ∀ c ∈ ipb, c.isDigit = true) (hfpbD : ∀ c ∈ fpb, c.isDigit = true)
    (hv : [v] ∈ SUPPORTED_VARIABLES)
    (ha : epsTol < parseFloat (decimalChars da ipa fpa))
    (hb : parseFloat (decimalChars db ipb fpb) = 0 ∨
      epsTol < parseFloat (decimalChars db ipb fpb)) :
    ∃ ast sol,
      (AlgebraicParser.parseEquation DEFAULT_ENGINE_CONFIG
          (c2Input sa (decimalChars da ipa fpa) v sb (decimalChars db ipb fpb))).ast =
        some ast ∧
      EquationEngine.solve ast = .ok sol ∧ sol.varName = [v] ∧
      sol.value = -(signOf sb * parseFloat (decimalChars db ipb fpb)) /
        (signOf sa * parseFloat (decimalChars da ipa fpa)) := by
  obtain ⟨hva, hvw, hvd, hsup, hvne⟩ :
      v.isAlpha = true ∧ v.isWhitespace = false ∧ v.isDigit = false ∧
        SUPPORTED_VARIABLES.contains [v] = true ∧ [v] ≠ ("constant".toList) := by
    simp only [SUPPORTED_VARIABLES, List.mem_cons, List.cons.injEq, and_true,
      List.not_mem_nil, or_false] at hv
    rcases hv with h | h | h | h | h | h | h | h <;> subst h <;>
      exact ⟨by decide, by decide, by decide, by decide, by decide⟩
  rcases ipa with _ | ⟨ca, ta0⟩
  · exact absurd rfl hipa
  rcases ipb with _ | ⟨cb, tb0⟩
  · exact absurd rfl hipb
  have hca : ca.isDigit = true := hipaD ca (by simp)
  have hcb : cb.isDigit = true := hipbD cb (by simp)
  have hta0 : ∀ c ∈ ta0, c.isDigit = true := fun c hc => hipaD c (List.mem_cons_of_mem _ hc)
  have htb0 : ∀ c ∈ tb0, c.isDigit = true := fun c hc => hipbD c (List.mem_cons_of_mem _ hc)
  have hda : decimalChars da (ca :: ta0) fpa =
      ca :: (if da then ta0 ++ '.' :: fpa else ta0) := by
    cases da <;> simp [decimalChars]
  have hdb : decimalChars db (cb :: tb0) fpb =
      cb :: (if db then tb0 ++ '.' :: fpb else tb0) := by
    cases db <;> simp [decimalChars]
  rw [hda] at ha ⊢
  rw [hdb] at hb ⊢
  have hNSB : NumSafe [' ', '=', ' ', '0'] := by
    intro c hc
    injection hc with h
    subst h
    exact ⟨by decide, by decide⟩
  have hNSA : NumSafe (v :: ' ' :: (if sb then '-' else '+') :: ' ' ::
      ((cb :: (if db then tb0 ++ '.' :: fpb else tb0)) ++ [' ', '=', ' ', '0'])) := by
    intro c hc
    injection hc with h
    subst h
    refine ⟨hvd, fun hdot => ?_⟩
    rw [hdot] at hva
    exact absurd hva (by decide)
  have hspanB : numberSpan true false
      ((if db then tb0 ++ '.' :: fpb else tb0) ++ [' ', '=', ' ', '0']) =
      ((if db then tb0 ++ '.' :: fpb else tb0), [' ', '=', ' ', '0']) := by
    cases db
    · simpa using numberSpan_digits true false tb0 _ htb0 hNSB
    · simpa [List.append_assoc] using numberSpan_decimal tb0 fpb _ htb0 hfpbD hNSB
  have hspanA : numberSpan true false
      ((if da then ta0 ++ '.' :: fpa else ta0) ++
        v :: ' ' :: (if sb then '-' else '+') :: ' ' ::
          ((cb :: (if db then tb0 ++ '.' :: fpb else tb0)) ++ [' ', '=', ' ', '0'])) =
      ((if da then ta0 ++ '.' :: fpa else ta0),
        v :: ' ' :: (if sb then '-' else '+') :: ' ' ::
          ((cb :: (if db then tb0 ++ '.' :: fpb else tb0)) ++ [' ', '=', ' ', '0'])) := by
    cases da
    · simpa using numberSpan_digits true false ta0 _ hta0 hNSA
    · simpa [List.append_assoc] using numberSpan_decimal ta0 fpa _ hta0 hfpaD hNSA
  exact c2_core sa sb ca cb v (if da then ta0 ++ '.' :: fpa else ta0)
    (if db then tb0 ++ '.' :: fpb else tb0) hca hcb hva hvw hvd hsup hvne hspanA hspanB ha hb

/-- C2 witness: the amended round-trip theorem applied at the concrete
input `3x + 5 = 0` (coefficient 3, constant 5, variable x), whose returned
solution is exactly `-5/3`. -/
theorem c2_amended_witness :
    ∃ ast sol,
      (AlgebraicParser.parseEquation DEFAULT_ENGINE_CONFIG ("3x + 5 = 0".toList)).ast =
        some ast ∧
      EquationEngine.solve ast = .ok sol ∧ sol.varName = ['x'] ∧
      sol.value = -(5 : Rat) / 3 := by
  have h3v : parseFloat (decimalChars false ['3'] []) = 3 := by
    rw [show decimalChars false ['3'] [] = ['3'] from rfl, parseFloat_plain ['3'] (by decide),
      show natValue ['3'] = 3 from rfl]
    norm_num
  have h5v : parseFloat (decimalChars false ['5'] []) = 5 := by
    rw [show decimalChars false ['5'] [] = ['5'] from rfl, parseFloat_plain ['5'] (by decide),
      show natValue ['5'] = 5 from rfl]
    norm_num
  obtain ⟨ast, sol, h1, h2, h3, h4⟩ := c2_amended_roundtrip false false false false
    ['3'] [] ['5'] [] 'x' (by decide) (by decide) (by decide) (by decide) (by decide)
    (by decide) (by decide) (by rw [h3v]; norm_num [epsTol]) (Or.inr (by rw [h5v]; norm_num [epsTol]))
  rw [show c2Input false (decimalChars false ['3'] []) 'x' false (decimalChars false ['5'] []) =
    ("3x + 5 = 0".toList) from by decide] at h1
  refine ⟨ast, sol, h1, h2, h3, ?_⟩
  rw [h4, h3v, h5v]
  norm_num [signOf]

end MetroCity
